import Mathlib

/-!
A 1-nearest-neighbour classifier over sparse binary vectors.

Shallow embedding of `projects/sdr_paper/knn_classifier.cpp`.

Conventions of the embedding.

* `int` values (`numClasses_`, `inputSize_`, `row`, `k`, `category`, the class labels and the
  counters) are `Int`; `UInt` column indices and container sizes are `Nat`.  Sizes and counters
  are assumed to stay below `2^31`, so no wrap-around is modelled.
* The entries of the stored rows and the distances are `Real` numbers in the source, 32-bit
  floating-point numbers in the default build.  All stored entries are built from `Int` pixels
  that are 0 or 1, which a `Real` holds exactly.  A distance is the integer sum of the squared
  differences as a `Real` holds it (`toReal`): the sum itself up to `2^24`, and the sum rounded
  to 24 significant bits beyond.  The arithmetic inside the library is not part of the source
  file; for vectors of 0 and 1 with at most `2^24` columns every number in it is an integer a
  `Real` holds exactly.
* An access the source performs without a check (an element of a `std::vector` past its end, a row
  of a matrix that does not exist, a range read through an iterator past the end) has no defined
  result.  The embedding makes every such access explicit: the operation returns `Except.error`
  with the `Fault` naming the access, and `Except.ok` when every access was in range.
  `Fault.checked` tells the two failures the source reports from the accesses it does not check.
* Member functions take the classifier and give it back together with their result, so that what
  a call does to the members is visible.
* The two quotients printed by `classifyDataset` are kept as exact rationals; a quotient whose
  divisor is zero is not a number and is `none`.
-/

/-- The accesses of the source that can go wrong. -/
inductive Fault where
  /-- The check `ncols > 0` of the `NearestNeighbor` constructor. -/
  | constructorCheck
  /-- A `std::vector::resize` to a negative length. -/
  | lengthError
  /-- The element `trainingSet[category]` or `dataSet[category]` of the vector of collections. -/
  | collectionIndex
  /-- The row `row` of a `SparseMatrix01` in `nNonZerosRow(row)` and `getRowSparse(row, _)`. -/
  | rowIndex
  /-- The element `pixels[indices[j]]` or `denseX[indices[j]]` of the dense vector. -/
  | denseIndex
  /-- The `nCols` values read through the iterator given to `addRow` or to `L2Dist`. -/
  | iteratorRange
  /-- The element `knn_categories_[0]` or `knn_categories_[i]`. -/
  | categoriesIndex
  /-- The element `distances[0]`. -/
  | distancesIndex
  deriving DecidableEq, Repr

/-- Modelled from the spec: the sparse row container `SparseMatrix01<UInt, Int>` of the library,
of which the classifier uses the row count, the number of non-zeros of a row and the list of the
non-zero column indices of a row.  A matrix is the list of its rows, a row the list of its
non-zero column indices. -/
structure SparseMatrix01 where
  rows : List (List Nat)
  deriving DecidableEq, Repr

/-- The row count `nRows()`. -/
def SparseMatrix01.nRows (m : SparseMatrix01) : Nat := m.rows.length

/-- The pair `nNonZerosRow(row)`, `getRowSparse(row, indices.begin())`: the non-zero column
indices of row `row`, which has to exist. -/
def SparseMatrix01.getRowSparse (m : SparseMatrix01) (row : Int) : Except Fault (List Nat) :=
  if row < 0 then .error .rowIndex
  else
    match m.rows[row.toNat]? with
    | some indices => .ok indices
    | none => .error .rowIndex

/-- Modelled from the spec: the dense distance engine `NearestNeighbor<SparseMatrix<UInt, Real>>`
of the library: a matrix with a fixed number of columns to which rows are appended, and which
computes the distance from one dense vector to every stored row. -/
structure NearestNeighbor where
  nCols : Nat
  rows : List (List Int)
  deriving DecidableEq, Repr

/-- Modelled from the spec: the constructor `NearestNeighbor(nrows, ncols)`: a matrix of `nrows`
rows of zeros and `ncols` columns (the classifier calls it with `nrows = 0`, for an empty
store); construction fails when `ncols <= 0`. -/
def NearestNeighbor.construct (nrows ncols : Int) : Except Fault NearestNeighbor :=
  if ncols ≤ 0 then .error .constructorCheck
  else .ok { nCols := ncols.toNat, rows := List.replicate nrows.toNat (List.replicate ncols.toNat 0) }

/-- The row count `nRows()`. -/
def NearestNeighbor.nRows (self : NearestNeighbor) : Nat := self.rows.length

/-- Modelled from the spec: `addRow(x.begin())` reads `nCols` values through the iterator and
appends them as a new last row. -/
def NearestNeighbor.addRow (self : NearestNeighbor) (x : List Int) : Except Fault NearestNeighbor :=
  if self.nCols ≤ x.length then .ok { self with rows := self.rows ++ [x.take self.nCols] }
  else .error .iteratorRange

/-- The squared Euclidean distance of two vectors: the sum of the squared differences. -/
def sqDist : List Int → List Int → Int
  | x :: xs, y :: ys => (x - y) * (x - y) + sqDist xs ys
  | _, _ => 0

/-- The factor by which a natural number `n` exceeds 24 significant bits: 1 when `n < 2^24`,
and otherwise twice the factor of `n / 2`.  The first argument bounds the number of halvings;
`n` itself is always enough. -/
def realScale : Nat → Nat → Nat
  | 0, _ => 1
  | fuel + 1, n => if n < 16777216 then 1 else 2 * realScale fuel (n / 2)

/-- The natural number a `Real` holds for the natural number `n`: `n` rounded to 24 significant
bits, to the nearest such number and to the even one of two that are equally near. -/
def toRealNat (n : Nat) : Nat :=
  let scale := realScale n n
  let q := n / scale
  let r := n % scale
  if 2 * r < scale then q * scale
  else if 2 * r = scale ∧ q % 2 = 0 then q * scale
  else (q + 1) * scale

/-- Modelled from the library: the type `Real` of the matrix entries and of the distances is,
in the default build, the 32-bit floating-point type, which holds 24 significant bits (its
declaration is not part of the source file).  `toReal x` is the integer a `Real` holds for the
integer `x`: `x` itself when `|x| <= 2^24`, and the nearest integer of 24 significant bits beyond
that.  The integers that occur are sums of at most `inputSize` squares of differences of 0 and
1, far below the largest number a `Real` holds. -/
def toReal (x : Int) : Int :=
  if x < 0 then -((toRealNat x.natAbs : Nat) : Int) else ((toRealNat x.toNat : Nat) : Int)

/-- The squared distance of two vectors as the `Real` that `L2Dist` writes to `distances`. -/
def realDist (x r : List Int) : Int := toReal (sqDist x r)

/-- Modelled from the spec: `L2Dist(x.begin(), distances.begin())` reads `nCols` values through
the iterator and yields, for every stored row in order, the squared distance from `x` to it, a
value of type `Real`. -/
def NearestNeighbor.L2Dist (self : NearestNeighbor) (x : List Int) : Except Fault (List Int) :=
  if self.nCols ≤ x.length then .ok (self.rows.map (realDist (x.take self.nCols)))
  else .error .iteratorRange

set_option linter.unusedVariables false

/-- The members of `KNNClassifier`. -/
structure KNNClassifier where
  numClasses_ : Int
  inputSize_ : Int
  knn_ : NearestNeighbor
  knn_categories_ : List Int
  deriving DecidableEq, Repr

/-- The constructor `KNNClassifier::KNNClassifier(numClasses, inputSize)`. -/
def KNNClassifier.construct (numClasses inputSize : Int) : Except Fault KNNClassifier :=
  match NearestNeighbor.construct 0 inputSize with
  | .error e => .error e
  | .ok knn =>
    .ok { numClasses_ := numClasses, inputSize_ := inputSize, knn_ := knn, knn_categories_ := [] }

/-- A fresh `std::vector<Int>` resized to `n` elements of value `v`
(`v.resize(n)` fills with zeros). -/
def resize (n : Int) (v : Int) : Except Fault (List Int) :=
  if n < 0 then .error .lengthError else .ok (List.replicate n.toNat v)

/-- The loop `for (j = 0; j < indices.size(); j++) dense[indices[j]] = 1;`. -/
def setOnes : List Int → List Nat → Except Fault (List Int)
  | dense, [] => .ok dense
  | dense, i :: indices =>
    if i < dense.length then setOnes (dense.set i 1) indices else .error .denseIndex

/-- The element `v[i]` of a `std::vector` indexed by an `int`. -/
def vectorAt {α : Type} (v : List α) (i : Int) (fault : Fault) : Except Fault α :=
  if i < 0 then .error fault
  else
    match v[i.toNat]? with
    | some a => .ok a
    | none => .error fault

/-- The body of the loop of `trainClass` over the rows `i = 0, 1, ...` of
`trainingSet[category]`, the rows given as the list of their index lists. -/
def KNNClassifier.trainRows (category : Int) :
    KNNClassifier → List (List Nat) → Except Fault KNNClassifier
  | self, [] => .ok self
  | self, indices :: rest =>
    match resize self.inputSize_ 0 with
    | .error e => .error e
    | .ok pixels0 =>
      match setOnes pixels0 indices with
      | .error e => .error e
      | .ok pixels =>
        match self.knn_.addRow pixels with
        | .error e => .error e
        | .ok knn =>
          KNNClassifier.trainRows category
            { self with knn_ := knn, knn_categories_ := self.knn_categories_ ++ [category] } rest

/-- The function `KNNClassifier::trainClass(category, trainingSet)`. -/
def KNNClassifier.trainClass (self : KNNClassifier) (category : Int)
    (trainingSet : List SparseMatrix01) : Except Fault KNNClassifier :=
  match resize self.inputSize_ 1 with
  | .error e => .error e
  | .ok _ =>
    match vectorAt trainingSet category .collectionIndex with
    | .error e => .error e
    | .ok m => KNNClassifier.trainRows category self m.rows

/-- The loop of `trainDataset` over the categories still to be trained. -/
def KNNClassifier.trainCategories (trainingSet : List SparseMatrix01) :
    KNNClassifier → List Nat → Except Fault KNNClassifier
  | self, [] => .ok self
  | self, category :: rest =>
    match self.trainClass (category : Int) trainingSet with
    | .error e => .error e
    | .ok self1 => KNNClassifier.trainCategories trainingSet self1 rest

/-- The function `KNNClassifier::trainDataset(trainingSet)`:
`for (category = 0; category < numClasses_; category++) trainClass(category, trainingSet);`. -/
def KNNClassifier.trainDataset (self : KNNClassifier) (trainingSet : List SparseMatrix01) :
    Except Fault KNNClassifier :=
  KNNClassifier.trainCategories trainingSet self (List.range self.numClasses_.toNat)

/-- The loop `for (i = 0; i < distances.size(); i++)` of `classifyPattern`, at index `i` with the
distances from index `i` on still to be looked at.  The distances and `bestDistance` are values
of type `Real`, each held as the integer it is (see `toReal`). -/
def findBest (knn_categories_ : List Int) : List Int → Nat → Int → Int → Except Fault Int
  | [], _, bestClass, _ => .ok bestClass
  | d :: distances, i, bestClass, bestDistance =>
    if d < bestDistance then
      match knn_categories_[i]? with
      | some c => findBest knn_categories_ distances (i + 1) c d
      | none => .error .categoriesIndex
    else findBest knn_categories_ distances (i + 1) bestClass bestDistance

/-- The function `KNNClassifier::classifyPattern(row, k, dataSet)`. -/
def KNNClassifier.classifyPattern (self : KNNClassifier) (row k : Int)
    (dataSet : SparseMatrix01) : Except Fault (Int × KNNClassifier) :=
  match resize self.inputSize_ 0 with
  | .error e => .error e
  | .ok denseX0 =>
    match dataSet.getRowSparse row with
    | .error e => .error e
    | .ok indices =>
      match setOnes denseX0 indices with
      | .error e => .error e
      | .ok denseX =>
        match self.knn_.L2Dist denseX with
        | .error e => .error e
        | .ok distances =>
          match self.knn_categories_[0]? with
          | none => .error .categoriesIndex
          | some bestClass =>
            match distances[0]? with
            | none => .error .distancesIndex
            | some bestDistance =>
              match findBest self.knn_categories_ distances 0 bestClass bestDistance with
              | .error e => .error e
              | .ok best => .ok (best, self)

/-- The quotient `a / b` of the two counts as the source prints it: not a number when the
divisor is zero, and the exact quotient otherwise. -/
def quotient (a b : Int) : Option ℚ :=
  if b = 0 then none else some ((a : ℚ) / (b : ℚ))

/-- The line `classifyDataset` prints for one category. -/
structure CategoryLine where
  category : Int
  numExamples : Nat
  numCorrectClass : Int
  pctCorrect : Option ℚ
  deriving DecidableEq, Repr

/-- What `classifyDataset` has when it returns: the lines printed for the categories, the two
counters, and the overall accuracy printed last. -/
structure Report where
  lines : List CategoryLine
  numCorrect : Int
  numInferences : Int
  overallAccuracy : Option ℚ
  deriving DecidableEq, Repr

/-- The counters of `classifyDataset` inside the loop over the patterns of one category. -/
structure Counters where
  numCorrect : Int
  numInferences : Int
  numCorrectClass : Int
  deriving DecidableEq, Repr

/-- The inner loop of `classifyDataset` over the patterns `p` of `dataSet[category]`. -/
def KNNClassifier.classifyRows (k category : Int) (m : SparseMatrix01) :
    KNNClassifier → List Nat → Counters → Except Fault (Counters × KNNClassifier)
  | self, [], n => .ok (n, self)
  | self, p :: rest, n =>
    match self.classifyPattern (p : Int) k m with
    | .error e => .error e
    | .ok (bestClass, self1) =>
      if bestClass = category then
        KNNClassifier.classifyRows k category m self1 rest
          { numCorrect := n.numCorrect + 1, numInferences := n.numInferences + 1,
            numCorrectClass := n.numCorrectClass + 1 }
      else
        KNNClassifier.classifyRows k category m self1 rest
          { n with numInferences := n.numInferences + 1 }

/-- The outer loop of `classifyDataset` over the collections `dataSet[category]`, the
collections from index `category` on still to be classified. -/
def KNNClassifier.classifyCategories (k : Int) :
    KNNClassifier → List SparseMatrix01 → Nat → Int → Int → List CategoryLine →
      Except Fault (List CategoryLine × Int × Int × KNNClassifier)
  | self, [], _, numCorrect, numInferences, lines => .ok (lines, numCorrect, numInferences, self)
  | self, m :: rest, category, numCorrect, numInferences, lines =>
    match KNNClassifier.classifyRows k (category : Int) m self (List.range m.nRows)
        { numCorrect := numCorrect, numInferences := numInferences, numCorrectClass := 0 } with
    | .error e => .error e
    | .ok (n, self1) =>
      KNNClassifier.classifyCategories k self1 rest (category + 1) n.numCorrect n.numInferences
        (lines ++ [{ category := (category : Int), numExamples := m.nRows,
                     numCorrectClass := n.numCorrectClass,
                     pctCorrect := quotient n.numCorrectClass (m.nRows : Int) }])

/-- The function `KNNClassifier::classifyDataset(k, dataSet)`. -/
def KNNClassifier.classifyDataset (self : KNNClassifier) (k : Int)
    (dataSet : List SparseMatrix01) : Except Fault (Report × KNNClassifier) :=
  match KNNClassifier.classifyCategories k self dataSet 0 0 0 [] with
  | .error e => .error e
  | .ok (lines, numCorrect, numInferences, self1) =>
    .ok ({ lines := lines, numCorrect := numCorrect, numInferences := numInferences,
           overallAccuracy := quotient (100 * numCorrect) numInferences }, self1)

/-! ## Definitions of the specification -/

/-- The dense 0/1 vector of length `n` of a sparse index list, as the specification words it:
`1` at position `i` exactly when `i` occurs in the list, `0` at every other position. -/
def denseOf (n : Nat) (indices : List Nat) : List Int :=
  (List.range n).map (fun i => if i ∈ indices then 1 else 0)

/-- Index `b` holds the first minimal entry of the list `D`: no entry is smaller than `D[b]`, and
every entry before index `b` is strictly larger. -/
def IsFirstMin (D : List Int) (b : Nat) : Prop :=
  ∃ d : Int, D[b]? = some d ∧ (∀ (j : Nat) (e : Int), D[j]? = some e → d ≤ e) ∧
    (∀ (j : Nat) (e : Int), j < b → D[j]? = some e → d < e)

/-- The rows the specification has `trainDataset` append for the collections of the classes, in
order: class by class, and inside a class the densified examples in their row order. -/
def appendedRows (n : Nat) : List SparseMatrix01 → List (List Int)
  | [] => []
  | m :: rest => m.rows.map (denseOf n) ++ appendedRows n rest

/-- The labels the specification has `trainDataset` append for the collections of the classes
`c`, `c + 1`, ...: the class index, once for every example of the class. -/
def appendedLabels : Nat → List SparseMatrix01 → List Int
  | _, [] => []
  | c, m :: rest => List.replicate m.nRows (c : Int) ++ appendedLabels (c + 1) rest

/-- The number of examples of a list of collections: the sum of their row counts. -/
def totalRows : List SparseMatrix01 → Nat
  | [] => 0
  | m :: rest => m.nRows + totalRows rest

/-- Every index of every example of the collection is below `n`. -/
def SparseMatrix01.Below (m : SparseMatrix01) (n : Int) : Prop :=
  ∀ indices ∈ m.rows, ∀ i ∈ indices, (i : Int) < n

instance (m : SparseMatrix01) (n : Int) : Decidable (m.Below n) :=
  inferInstanceAs (Decidable (∀ indices ∈ m.rows, ∀ i ∈ indices, (i : Int) < n))

/-- The classifier states the program can be in: the states the constructor gives, and the
states the three public member functions give back when called in such a state. -/
inductive Reachable : KNNClassifier → Prop
  | construct (numClasses inputSize : Int) (c : KNNClassifier) :
      KNNClassifier.construct numClasses inputSize = .ok c → Reachable c
  | trainDataset (c c1 : KNNClassifier) (trainingSet : List SparseMatrix01) :
      Reachable c → c.trainDataset trainingSet = .ok c1 → Reachable c1
  | classifyPattern (c c1 : KNNClassifier) (row k label : Int) (dataSet : SparseMatrix01) :
      Reachable c → c.classifyPattern row k dataSet = .ok (label, c1) → Reachable c1
  | classifyDataset (c c1 : KNNClassifier) (k : Int) (dataSet : List SparseMatrix01)
      (report : Report) :
      Reachable c → c.classifyDataset k dataSet = .ok (report, c1) → Reachable c1

/-- The scenario of the specification: `numClasses = 2`, `inputSize = 4`, class 0 holds the one
example with no index, class 1 the one example with the indices 0, 1, 2, 3. -/
def scenarioDataset : List SparseMatrix01 :=
  [{ rows := [[]] }, { rows := [[0, 1, 2, 3]] }]

/-- The data set of the scenario with a third collection of two examples, one more collection
than the scenario has classes. -/
def scenarioThreeCollections : List SparseMatrix01 :=
  scenarioDataset ++ [{ rows := [[0], [1, 2]] }]

/-- The classifier of the scenario after `trainDataset` on `scenarioDataset`. -/
def scenarioClassifier : KNNClassifier :=
  { numClasses_ := 2, inputSize_ := 4,
    knn_ := { nCols := 4, rows := [[0, 0, 0, 0], [1, 1, 1, 1]] },
    knn_categories_ := [0, 1] }

/-- A store of `2^24 + 1` columns with two rows of zeros and ones: row 0, with label 0, holds a
one in every column; row 1, with label 1, holds a zero in column 0 and a one in every other
column.  It is the store after training the example with all indices in class 0 and the example
with all indices but 0 in class 1. -/
def wideClassifier : KNNClassifier :=
  { numClasses_ := 2, inputSize_ := 16777217,
    knn_ := { nCols := 16777217,
              rows := [List.replicate 16777217 1, 0 :: List.replicate 16777216 1] },
    knn_categories_ := [0, 1] }

/-- The label `classifyPattern` predicts for pattern `p` of the collection `m`, when it returns
one. -/
def KNNClassifier.predicted (self : KNNClassifier) (k : Int) (m : SparseMatrix01) (p : Nat) :
    Option Int :=
  match self.classifyPattern (p : Int) k m with
  | .ok (label, _) => some label
  | .error _ => none

/-- The number of examples of the collection `m` whose predicted label is the collection index
`category`. -/
def KNNClassifier.correctIn (self : KNNClassifier) (k : Int) (category : Nat)
    (m : SparseMatrix01) : Nat :=
  (List.range m.nRows).countP (fun p => self.predicted k m p == some (category : Int))

/-- The sum, over the collections of the classes `c`, `c + 1`, ..., of the number of examples
whose predicted label is the collection index. -/
def KNNClassifier.totalCorrect (self : KNNClassifier) (k : Int) :
    Nat → List SparseMatrix01 → Nat
  | _, [] => 0
  | c, m :: rest => self.correctIn k c m + KNNClassifier.totalCorrect self k (c + 1) rest

/-- The lines of the specification for the collections of the classes `c`, `c + 1`, ...: the
class index, the number of examples, the number of correct predictions, and their quotient. -/
def KNNClassifier.expectedLines (self : KNNClassifier) (k : Int) :
    Nat → List SparseMatrix01 → List CategoryLine
  | _, [] => []
  | c, m :: rest =>
    { category := (c : Int), numExamples := m.nRows,
      numCorrectClass := (self.correctIn k c m : Int),
      pctCorrect := quotient (self.correctIn k c m : Int) (m.nRows : Int) } ::
      KNNClassifier.expectedLines self k (c + 1) rest

/-- Two sparse examples are identical when they hold the same indices. -/
def SameExample (e q : List Nat) : Prop := ∀ i : Nat, i ∈ e ↔ i ∈ q

instance (e q : List Nat) : Decidable (SameExample e q) :=
  decidable_of_iff ((∀ i ∈ e, i ∈ q) ∧ (∀ i ∈ q, i ∈ e))
    ⟨fun h i => ⟨h.1 i, h.2 i⟩, fun h => ⟨fun i => (h i).mp, fun i => (h i).mpr⟩⟩

/-- The state the specification gives a classifier that was constructed with `numClasses` and
`inputSize` and then trained on the collections `l` of the classes `0`, `1`, ... -/
def trainedOn (numClasses inputSize : Int) (l : List SparseMatrix01) : KNNClassifier :=
  { numClasses_ := numClasses, inputSize_ := inputSize,
    knn_ := { nCols := inputSize.toNat, rows := appendedRows inputSize.toNat l },
    knn_categories_ := appendedLabels 0 l }

/-- Whether the source itself reports the fault: the check of the constructor and a `resize`
to a negative length raise an exception the caller can observe; every other fault is an access
the source performs without a check, whose result is not defined. -/
def Fault.checked : Fault → Bool
  | .constructorCheck => true
  | .lengthError => true
  | .collectionIndex => false
  | .rowIndex => false
  | .denseIndex => false
  | .iteratorRange => false
  | .categoriesIndex => false
  | .distancesIndex => false

/-- A stored row of `n` columns whose entries are all 0 or 1. -/
def IsBinaryRow (n : Nat) (r : List Int) : Prop :=
  r.length = n ∧ ∀ x ∈ r, x = 0 ∨ x = 1

instance (n : Nat) (r : List Int) : Decidable (IsBinaryRow n r) :=
  inferInstanceAs (Decidable (r.length = n ∧ ∀ x ∈ r, x = 0 ∨ x = 1))

/-! ## Densification -/

theorem setOnes_eq (indices : List Nat) :
    ∀ dense : List Int, (∀ i ∈ indices, i < dense.length) →
      setOnes dense indices =
        .ok ((List.range dense.length).map
          (fun i => if i ∈ indices then (1 : Int) else dense.getD i 0)) := by
  induction indices with
  | nil =>
    intro dense _
    simp only [setOnes, List.not_mem_nil, if_false]
    congr 1
    apply List.ext_getElem
    · simp
    · intro i h1 h2
      simp [List.getD_eq_getElem?_getD, List.getElem?_eq_getElem h1]
  | cons j rest ih =>
    intro dense h
    have hj : j < dense.length := h j (List.mem_cons_self _ _)
    simp only [setOnes, hj, if_true]
    rw [ih (dense.set j 1) (by
      intro i hi
      simpa using h i (List.mem_cons_of_mem _ hi))]
    congr 1
    simp only [List.length_set]
    apply List.map_congr_left
    intro i hi
    by_cases hij : i = j
    · subst hij
      simp [List.getD_eq_getElem?_getD, List.getElem?_set, hj]
    · by_cases hir : i ∈ rest
      · simp [hir]
      · have hji : ¬ j = i := fun h => hij h.symm
        simp [hir, hij, List.getD_eq_getElem?_getD, List.getElem?_set, hji]

theorem setOnes_replicate (n : Nat) (indices : List Nat) (h : ∀ i ∈ indices, i < n) :
    setOnes (List.replicate n 0) indices = .ok (denseOf n indices) := by
  rw [setOnes_eq indices (List.replicate n 0) (by simpa using h)]
  congr 1
  simp only [List.length_replicate, denseOf]
  apply List.map_congr_left
  intro i hi
  have hi2 : i < n := by simpa using hi
  simp [List.getD_eq_getElem?_getD, hi2]

theorem denseOf_length (n : Nat) (indices : List Nat) : (denseOf n indices).length = n := by
  simp [denseOf]

/-! ## The search loop of `classifyPattern` -/

theorem findBest_inv (cats D : List Int) (hlen : D.length ≤ cats.length) :
    ∀ (rest pre : List Int) (b : Nat) (bc bd : Int),
      D = pre ++ rest → D[b]? = some bd → cats[b]? = some bc →
      (∀ (j : Nat) (e : Int), j < pre.length → D[j]? = some e → bd ≤ e) →
      (∀ (j : Nat) (e : Int), j < b → D[j]? = some e → bd < e) →
      ∃ b1 c, findBest cats rest pre.length bc bd = .ok c ∧ cats[b1]? = some c ∧
        IsFirstMin D b1 := by
  intro rest
  induction rest with
  | nil =>
    intro pre b bc bd hD hb hc hle hlt
    refine ⟨b, bc, by simp [findBest], hc, bd, hb, ?_, hlt⟩
    intro j e hj
    have hjlt : j < D.length := by
      rcases List.getElem?_eq_some_iff.mp hj with ⟨h, _⟩
      exact h
    have hDlen : D.length = pre.length := by simp [hD]
    exact hle j e (by omega) hj
  | cons d rest ih =>
    intro pre b bc bd hD hb hc hle hlt
    have hDi : D[pre.length]? = some d := by
      rw [hD, List.getElem?_append_right (le_refl _)]
      simp
    have hD2 : D = (pre ++ [d]) ++ rest := by simp [hD]
    have hilt : pre.length < D.length := by simp [hD]
    by_cases hd : d < bd
    · obtain ⟨c, hcat⟩ : ∃ c, cats[pre.length]? = some c :=
        ⟨cats[pre.length], List.getElem?_eq_getElem (by omega)⟩
      have hstep := ih (pre ++ [d]) pre.length c d hD2 hDi hcat
        (by
          intro j e hj hje
          simp only [List.length_append, List.length_singleton] at hj
          rcases Nat.lt_succ_iff_lt_or_eq.mp hj with h | h
          · exact le_of_lt (lt_of_lt_of_le hd (hle j e h hje))
          · subst h
            rw [hDi] at hje
            cases hje
            exact le_refl _)
        (by
          intro j e hj hje
          exact lt_of_lt_of_le hd (hle j e hj hje))
      simp only [List.length_append, List.length_singleton] at hstep
      simpa [findBest, hd, hcat] using hstep
    · have hstep := ih (pre ++ [d]) b bc bd hD2 hb hc
        (by
          intro j e hj hje
          simp only [List.length_append, List.length_singleton] at hj
          rcases Nat.lt_succ_iff_lt_or_eq.mp hj with h | h
          · exact hle j e h hje
          · subst h
            rw [hDi] at hje
            cases hje
            exact not_lt.mp hd)
        hlt
      simp only [List.length_append, List.length_singleton] at hstep
      simpa [findBest, hd] using hstep

/-- With at least as many labels as distances and at least one distance, the search of
`classifyPattern` returns the label at the index of the first minimal distance. -/
theorem findBest_first_min (cats D : List Int) (hlen : D.length ≤ cats.length)
    (bc bd : Int) (hc : cats[0]? = some bc) (hd : D[0]? = some bd) :
    ∃ b c, findBest cats D 0 bc bd = .ok c ∧ cats[b]? = some c ∧ IsFirstMin D b := by
  have h := findBest_inv cats D hlen D [] 0 bc bd (by simp) hd hc
    (by intro j e hj; simp at hj) (by intro j e hj; simp at hj)
  simpa using h

/-- What `classifyPattern` computes on a store with as many labels as rows, at least one row,
and as many columns as `inputSize_`, for a row of the data set whose indices are below
`inputSize_`: the label at the index of the first stored row whose distance from the densified
row, as a `Real`, is minimal; the classifier is given back as it was. -/
theorem classifyPattern_first_min (self : KNNClassifier) (row k : Int)
    (dataSet : SparseMatrix01) (indices : List Nat)
    (hstore : self.knn_.rows ≠ [])
    (hlabels : self.knn_.rows.length = self.knn_categories_.length)
    (hcols : (self.knn_.nCols : Int) = self.inputSize_)
    (hrow : 0 ≤ row ∧ dataSet.rows[row.toNat]? = some indices)
    (hidx : ∀ i ∈ indices, (i : Int) < self.inputSize_) :
    ∃ b label, self.classifyPattern row k dataSet = .ok (label, self) ∧
      self.knn_categories_[b]? = some label ∧
      IsFirstMin (self.knn_.rows.map (realDist (denseOf self.inputSize_.toNat indices))) b := by
  have hn : self.inputSize_.toNat = self.knn_.nCols := by omega
  have hnonneg : ¬ self.inputSize_ < 0 := by omega
  have hidx2 : ∀ i ∈ indices, i < self.knn_.nCols := by
    intro i hi
    have := hidx i hi
    omega
  have hrowlt : ¬ row < 0 := by omega
  obtain ⟨r0, rs, hrows⟩ : ∃ r0 rs, self.knn_.rows = r0 :: rs := by
    cases h : self.knn_.rows with
    | nil => exact absurd h hstore
    | cons r0 rs => exact ⟨r0, rs, rfl⟩
  obtain ⟨c0, cs, hcats⟩ : ∃ c0 cs, self.knn_categories_ = c0 :: cs := by
    cases h : self.knn_categories_ with
    | nil => rw [h, hrows] at hlabels; simp at hlabels
    | cons c0 cs => exact ⟨c0, cs, rfl⟩
  set x := denseOf self.knn_.nCols indices with hx
  have hfb := findBest_first_min self.knn_categories_ (self.knn_.rows.map (realDist x))
    (by simp [hlabels]) c0 (realDist x r0) (by simp [hcats]) (by simp [hrows])
  obtain ⟨b, c, hfind, hcb, hmin⟩ := hfb
  refine ⟨b, c, ?_, hcb, ?_⟩
  · simp only [KNNClassifier.classifyPattern, resize, hnonneg, if_false,
      SparseMatrix01.getRowSparse, hrowlt, hrow.2, hn, setOnes_replicate _ _ hidx2,
      NearestNeighbor.L2Dist, denseOf_length, le_refl, if_true]
    have htake : List.take self.knn_.nCols x = x := by
      apply List.take_of_length_le
      simp [hx, denseOf_length]
    rw [← hx, htake]
    rw [hrows, hcats] at hfind ⊢
    simp only [List.map_cons, List.getElem?_cons_zero] at hfind ⊢
    rw [hfind]
  · rw [hn]
    exact hmin

/-! ## Training -/

theorem trainRows_eq (category : Int) (rows : List (List Nat)) :
    ∀ self : KNNClassifier, (self.knn_.nCols : Int) = self.inputSize_ →
      (∀ indices ∈ rows, ∀ i ∈ indices, (i : Int) < self.inputSize_) →
      KNNClassifier.trainRows category self rows =
        .ok { self with
              knn_ := { self.knn_ with
                        rows := self.knn_.rows ++ rows.map (denseOf self.inputSize_.toNat) }
              knn_categories_ := self.knn_categories_ ++ List.replicate rows.length category } := by
  induction rows with
  | nil =>
    intro self _ _
    simp [KNNClassifier.trainRows]
  | cons indices rest ih =>
    intro self hcols hidx
    have hn : self.inputSize_.toNat = self.knn_.nCols := by omega
    have hnonneg : ¬ self.inputSize_ < 0 := by omega
    have hidx2 : ∀ i ∈ indices, i < self.knn_.nCols := by
      intro i hi
      have := hidx indices (List.mem_cons_self _ _) i hi
      omega
    have htake : List.take self.knn_.nCols (denseOf self.knn_.nCols indices) =
        denseOf self.knn_.nCols indices := by
      apply List.take_of_length_le
      simp [denseOf_length]
    simp only [KNNClassifier.trainRows, resize, hnonneg, if_false, hn,
      setOnes_replicate _ _ hidx2, NearestNeighbor.addRow, denseOf_length, le_refl, if_true,
      htake]
    refine (ih _ ?_ ?_).trans ?_
    · exact hcols
    · intro r hr i hi
      exact hidx r (List.mem_cons_of_mem _ hr) i hi
    · simp [hn, List.replicate_succ]

theorem trainClass_eq (self : KNNClassifier) (c : Nat) (trainingSet : List SparseMatrix01)
    (m : SparseMatrix01) (hcols : (self.knn_.nCols : Int) = self.inputSize_)
    (hm : trainingSet[c]? = some m) (hidx : m.Below self.inputSize_) :
    self.trainClass (c : Int) trainingSet =
      .ok { self with
            knn_ := { self.knn_ with
                      rows := self.knn_.rows ++ m.rows.map (denseOf self.inputSize_.toNat) }
            knn_categories_ := self.knn_categories_ ++ List.replicate m.nRows (c : Int) } := by
  have hnonneg : ¬ self.inputSize_ < 0 := by omega
  have hc : ¬ (c : Int) < 0 := by omega
  simp only [KNNClassifier.trainClass, resize, hnonneg, if_false, vectorAt, hc, Int.toNat_ofNat,
    hm]
  rw [trainRows_eq _ _ self hcols hidx]
  rfl

theorem trainCategories_eq (trainingSet : List SparseMatrix01) :
    ∀ (len s : Nat) (self : KNNClassifier), (self.knn_.nCols : Int) = self.inputSize_ →
      s + len ≤ trainingSet.length →
      (∀ m ∈ (trainingSet.drop s).take len, m.Below self.inputSize_) →
      KNNClassifier.trainCategories trainingSet self (List.range' s len) =
        .ok { self with
              knn_ := { self.knn_ with
                        rows := self.knn_.rows ++
                          appendedRows self.inputSize_.toNat ((trainingSet.drop s).take len) }
              knn_categories_ := self.knn_categories_ ++
                appendedLabels s ((trainingSet.drop s).take len) } := by
  intro len
  induction len with
  | zero =>
    intro s self _ _ _
    simp [KNNClassifier.trainCategories, appendedRows, appendedLabels]
  | succ len ih =>
    intro s self hcols hlen hidx
    have hs : s < trainingSet.length := by omega
    have hdrop : trainingSet.drop s = trainingSet[s] :: trainingSet.drop (s + 1) :=
      List.drop_eq_getElem_cons hs
    have hm : trainingSet[s]? = some trainingSet[s] := List.getElem?_eq_getElem hs
    rw [hdrop] at hidx ⊢
    simp only [List.take_succ_cons, List.mem_cons, forall_eq_or_imp] at hidx
    simp only [List.range'_succ, KNNClassifier.trainCategories,
      trainClass_eq self s trainingSet _ hcols hm hidx.1, List.take_succ_cons]
    refine (ih (s + 1) _ ?_ (by omega) ?_).trans ?_
    · exact hcols
    · exact hidx.2
    · simp [appendedRows, appendedLabels]

theorem appendedRows_length (n : Nat) (l : List SparseMatrix01) :
    (appendedRows n l).length = totalRows l := by
  induction l with
  | nil => rfl
  | cons m rest ih => simp [appendedRows, totalRows, ih, SparseMatrix01.nRows]

theorem appendedLabels_length (l : List SparseMatrix01) :
    ∀ c : Nat, (appendedLabels c l).length = totalRows l := by
  induction l with
  | nil => intro c; rfl
  | cons m rest ih => intro c; simp [appendedLabels, totalRows, ih]

/-! ## What a call that returns leaves of the members -/

theorem trainRows_ok (category : Int) (rows : List (List Nat)) :
    ∀ self after : KNNClassifier, KNNClassifier.trainRows category self rows = .ok after →
      after.numClasses_ = self.numClasses_ ∧ after.inputSize_ = self.inputSize_ ∧
      after.knn_.nCols = self.knn_.nCols ∧
      (∃ added, after.knn_.rows = self.knn_.rows ++ added ∧ added.length = rows.length) ∧
      after.knn_categories_ = self.knn_categories_ ++ List.replicate rows.length category := by
  induction rows with
  | nil =>
    intro self after h
    simp only [KNNClassifier.trainRows, Except.ok.injEq] at h
    subst h
    exact ⟨rfl, rfl, rfl, ⟨[], by simp, rfl⟩, by simp⟩
  | cons indices rest ih =>
    intro self after h
    simp only [KNNClassifier.trainRows] at h
    split at h
    · cases h
    · split at h
      · cases h
      · split at h
        · cases h
        · rename_i knn hadd
          simp only [NearestNeighbor.addRow] at hadd
          split at hadd
          · simp only [Except.ok.injEq] at hadd
            subst hadd
            obtain ⟨h1, h2, h3, ⟨added, h4, h5⟩, h6⟩ := ih _ after h
            simp only [List.append_assoc, List.singleton_append] at h4 h6
            refine ⟨h1, h2, h3, ⟨_, h4, by simp [h5]⟩, ?_⟩
            rw [h6]
            simp [List.replicate_succ]
          · cases hadd

theorem trainClass_ok (self after : KNNClassifier) (category : Int)
    (trainingSet : List SparseMatrix01) (h : self.trainClass category trainingSet = .ok after) :
    after.numClasses_ = self.numClasses_ ∧ after.inputSize_ = self.inputSize_ ∧
    after.knn_.nCols = self.knn_.nCols ∧
    (∃ added, after.knn_.rows = self.knn_.rows ++ added ∧
      after.knn_categories_ = self.knn_categories_ ++ List.replicate added.length category) := by
  simp only [KNNClassifier.trainClass] at h
  split at h
  · cases h
  · split at h
    · cases h
    · obtain ⟨h1, h2, h3, ⟨added, h4, h5⟩, h6⟩ := trainRows_ok _ _ _ _ h
      exact ⟨h1, h2, h3, added, h4, by rw [h6, h5]⟩

theorem trainCategories_ok (trainingSet : List SparseMatrix01) (categories : List Nat) :
    ∀ self after : KNNClassifier,
      KNNClassifier.trainCategories trainingSet self categories = .ok after →
      after.numClasses_ = self.numClasses_ ∧ after.inputSize_ = self.inputSize_ ∧
      after.knn_.nCols = self.knn_.nCols ∧
      (∃ addedRows addedLabels, after.knn_.rows = self.knn_.rows ++ addedRows ∧
        after.knn_categories_ = self.knn_categories_ ++ addedLabels ∧
        addedRows.length = addedLabels.length ∧
        ∀ label ∈ addedLabels, ∃ c ∈ categories, label = (c : Int)) := by
  induction categories with
  | nil =>
    intro self after h
    simp only [KNNClassifier.trainCategories, Except.ok.injEq] at h
    subst h
    exact ⟨rfl, rfl, rfl, [], [], by simp, by simp, rfl, by simp⟩
  | cons c rest ih =>
    intro self after h
    simp only [KNNClassifier.trainCategories] at h
    split at h
    · cases h
    · rename_i self1 hclass
      obtain ⟨a1, a2, a3, added, a4, a5⟩ := trainClass_ok _ _ _ _ hclass
      obtain ⟨b1, b2, b3, rs, ls, b4, b5, b6, b7⟩ := ih _ after h
      refine ⟨b1.trans a1, b2.trans a2, b3.trans a3, added ++ rs,
        List.replicate added.length (c : Int) ++ ls, ?_, ?_, ?_, ?_⟩
      · rw [b4, a4, List.append_assoc]
      · rw [b5, a5, List.append_assoc]
      · simp [b6]
      · intro label hl
        rcases List.mem_append.mp hl with hl | hl
        · exact ⟨c, List.mem_cons_self _ _, (List.mem_replicate.mp hl).2⟩
        · obtain ⟨c1, hc1, hc2⟩ := b7 label hl
          exact ⟨c1, List.mem_cons_of_mem _ hc1, hc2⟩

theorem classifyPattern_ok (self after : KNNClassifier) (row k label : Int)
    (dataSet : SparseMatrix01) (h : self.classifyPattern row k dataSet = .ok (label, after)) :
    after = self := by
  simp only [KNNClassifier.classifyPattern] at h
  repeat' split at h
  all_goals first
    | (simp only [Except.ok.injEq, Prod.mk.injEq] at h; exact h.2.symm)
    | cases h

theorem classifyRows_ok (k category : Int) (m : SparseMatrix01) (ps : List Nat) :
    ∀ (self after : KNNClassifier) (n n1 : Counters),
      KNNClassifier.classifyRows k category m self ps n = .ok (n1, after) → after = self := by
  induction ps with
  | nil =>
    intro self after n n1 h
    simp only [KNNClassifier.classifyRows, Except.ok.injEq, Prod.mk.injEq] at h
    exact h.2.symm
  | cons p rest ih =>
    intro self after n n1 h
    simp only [KNNClassifier.classifyRows] at h
    split at h
    · cases h
    · rename_i bestClass self1 hcall
      have hself := classifyPattern_ok _ _ _ _ _ _ hcall
      subst hself
      split at h
      · exact ih _ _ _ _ h
      · exact ih _ _ _ _ h

theorem classifyCategories_ok (k : Int) (dataSet : List SparseMatrix01) :
    ∀ (self after : KNNClassifier) (category : Nat) (numCorrect numInferences : Int)
      (lines lines1 : List CategoryLine) (numCorrect1 numInferences1 : Int),
      KNNClassifier.classifyCategories k self dataSet category numCorrect numInferences lines =
        .ok (lines1, numCorrect1, numInferences1, after) → after = self := by
  induction dataSet with
  | nil =>
    intro self after category numCorrect numInferences lines lines1 numCorrect1 numInferences1 h
    simp only [KNNClassifier.classifyCategories, Except.ok.injEq, Prod.mk.injEq] at h
    exact h.2.2.2.symm
  | cons m rest ih =>
    intro self after category numCorrect numInferences lines lines1 numCorrect1 numInferences1 h
    simp only [KNNClassifier.classifyCategories] at h
    split at h
    · cases h
    · rename_i n self1 hrows
      have hself := classifyRows_ok _ _ _ _ _ _ _ _ hrows
      subst hself
      exact ih _ _ _ _ _ _ _ _ _ h

theorem classifyDataset_ok (self after : KNNClassifier) (k : Int)
    (dataSet : List SparseMatrix01) (report : Report)
    (h : self.classifyDataset k dataSet = .ok (report, after)) : after = self := by
  simp only [KNNClassifier.classifyDataset] at h
  split at h
  · cases h
  · rename_i lines numCorrect numInferences self1 hcats
    simp only [Except.ok.injEq, Prod.mk.injEq] at h
    rw [← h.2]
    exact classifyCategories_ok _ _ _ _ _ _ _ _ _ _ _ hcats

theorem construct_ok (numClasses inputSize : Int) (c : KNNClassifier)
    (h : KNNClassifier.construct numClasses inputSize = .ok c) :
    0 < inputSize ∧
    c = { numClasses_ := numClasses, inputSize_ := inputSize,
          knn_ := { nCols := inputSize.toNat, rows := [] }, knn_categories_ := [] } := by
  simp only [KNNClassifier.construct, NearestNeighbor.construct] at h
  split at h
  · cases h
  · rename_i knn hknn
    split at hknn
    · cases hknn
    · rename_i hcond
      simp only [Except.ok.injEq] at hknn h
      subst hknn
      exact ⟨by omega, h.symm⟩

/-- In every state the program can be in, `inputSize_` is positive and is the number of columns
of `knn_`. -/
theorem reachable_cols (c : KNNClassifier) (h : Reachable c) :
    0 < c.inputSize_ ∧ (c.knn_.nCols : Int) = c.inputSize_ := by
  induction h with
  | construct numClasses inputSize c hc =>
    obtain ⟨hpos, heq⟩ := construct_ok _ _ _ hc
    subst heq
    simp only []
    omega
  | trainDataset c c1 trainingSet _ htrain ih =>
    obtain ⟨_, h2, h3, _⟩ := trainCategories_ok _ _ _ _ htrain
    rw [h2, h3]
    exact ih
  | classifyPattern c c1 row k label dataSet _ hcall ih =>
    rw [classifyPattern_ok _ _ _ _ _ _ hcall]
    exact ih
  | classifyDataset c c1 k dataSet report _ hcall ih =>
    rw [classifyDataset_ok _ _ _ _ _ hcall]
    exact ih

/-! ## Evaluation of a data set -/

theorem classifyRows_eq (self : KNNClassifier) (k : Int) (category : Nat) (m : SparseMatrix01)
    (ps : List Nat) :
    ∀ n : Counters, (∀ p ∈ ps, ∃ label, self.classifyPattern (p : Int) k m = .ok (label, self)) →
      KNNClassifier.classifyRows k (category : Int) m self ps n =
        .ok ({ numCorrect := n.numCorrect +
                 (ps.countP (fun p => self.predicted k m p == some (category : Int)) : Nat),
               numInferences := n.numInferences + (ps.length : Nat),
               numCorrectClass := n.numCorrectClass +
                 (ps.countP (fun p => self.predicted k m p == some (category : Int)) : Nat) },
             self) := by
  induction ps with
  | nil =>
    intro n _
    simp [KNNClassifier.classifyRows]
  | cons p rest ih =>
    intro n h
    obtain ⟨label, hlabel⟩ := h p (List.mem_cons_self _ _)
    have hrest : ∀ q ∈ rest, ∃ label, self.classifyPattern (q : Int) k m = .ok (label, self) :=
      fun q hq => h q (List.mem_cons_of_mem _ hq)
    have hpred : self.predicted k m p = some label := by
      simp [KNNClassifier.predicted, hlabel]
    simp only [KNNClassifier.classifyRows, hlabel]
    by_cases hc : label = (category : Int)
    · simp only [hc, if_true]
      rw [ih _ hrest]
      have hcount : (self.predicted k m p == some (category : Int)) = true := by
        simp [hpred, hc]
      rw [List.countP_cons]
      simp only [hcount, if_true, List.length_cons, Nat.cast_add, Nat.cast_one]
      congr 2
      simp only [Counters.mk.injEq]
      refine ⟨by ring, by ring, by ring⟩
    · simp only [hc, if_false]
      rw [ih _ hrest]
      have hcount : (self.predicted k m p == some (category : Int)) = false := by
        simp [hpred, hc]
      rw [List.countP_cons]
      simp only [hcount, Bool.false_eq_true, if_false, List.length_cons, Nat.cast_add,
        Nat.cast_one, add_zero]
      congr 2
      simp only [Counters.mk.injEq]
      refine ⟨trivial, by ring, trivial⟩

theorem classifyPattern_returns (self : KNNClassifier) (k : Int) (m : SparseMatrix01)
    (hstore : self.knn_.rows ≠ [])
    (hlabels : self.knn_.rows.length = self.knn_categories_.length)
    (hcols : (self.knn_.nCols : Int) = self.inputSize_)
    (hidx : m.Below self.inputSize_) :
    ∀ p ∈ List.range m.nRows, ∃ label, self.classifyPattern (p : Int) k m = .ok (label, self) := by
  intro p hp
  have hp2 : p < m.rows.length := by simpa [SparseMatrix01.nRows] using hp
  obtain ⟨_, label, hcall, _⟩ := classifyPattern_first_min self (p : Int) k m m.rows[p]
    hstore hlabels hcols ⟨by omega, by simp [List.getElem?_eq_getElem hp2]⟩
    (hidx _ (List.getElem_mem _))
  exact ⟨label, hcall⟩

theorem classifyCategories_eq (self : KNNClassifier) (k : Int)
    (hstore : self.knn_.rows ≠ [])
    (hlabels : self.knn_.rows.length = self.knn_categories_.length)
    (hcols : (self.knn_.nCols : Int) = self.inputSize_)
    (dataSet : List SparseMatrix01) :
    ∀ (category : Nat) (numCorrect numInferences : Int) (lines : List CategoryLine),
      (∀ m ∈ dataSet, m.Below self.inputSize_) →
      KNNClassifier.classifyCategories k self dataSet category numCorrect numInferences lines =
        .ok (lines ++ self.expectedLines k category dataSet,
             numCorrect + (self.totalCorrect k category dataSet : Nat),
             numInferences + (totalRows dataSet : Nat), self) := by
  induction dataSet with
  | nil =>
    intro category numCorrect numInferences lines _
    simp [KNNClassifier.classifyCategories, KNNClassifier.expectedLines,
      KNNClassifier.totalCorrect, totalRows]
  | cons m rest ih =>
    intro category numCorrect numInferences lines hidx
    have hm : m.Below self.inputSize_ := hidx m (List.mem_cons_self _ _)
    have hrest : ∀ m1 ∈ rest, m1.Below self.inputSize_ :=
      fun m1 h1 => hidx m1 (List.mem_cons_of_mem _ h1)
    simp only [KNNClassifier.classifyCategories]
    rw [classifyRows_eq self k category m _ _
      (classifyPattern_returns self k m hstore hlabels hcols hm)]
    simp only []
    rw [ih (category + 1) _ _ _ hrest]
    simp only [KNNClassifier.expectedLines, KNNClassifier.totalCorrect, totalRows,
      KNNClassifier.correctIn, List.length_range, zero_add, List.append_assoc,
      List.singleton_append, Nat.cast_add]
    congr 2
    simp only [Prod.mk.injEq, and_true]
    refine ⟨by ring, by ring⟩

theorem classifyDataset_eq (self : KNNClassifier) (k : Int)
    (dataSet : List SparseMatrix01)
    (hstore : self.knn_.rows ≠ [])
    (hlabels : self.knn_.rows.length = self.knn_categories_.length)
    (hcols : (self.knn_.nCols : Int) = self.inputSize_)
    (hidx : ∀ m ∈ dataSet, m.Below self.inputSize_) :
    self.classifyDataset k dataSet =
      .ok ({ lines := self.expectedLines k 0 dataSet,
             numCorrect := (self.totalCorrect k 0 dataSet : Nat),
             numInferences := (totalRows dataSet : Nat),
             overallAccuracy :=
               quotient (100 * (self.totalCorrect k 0 dataSet : Nat)) (totalRows dataSet : Nat) },
           self) := by
  simp only [KNNClassifier.classifyDataset]
  rw [classifyCategories_eq self k hstore hlabels hcols dataSet 0 0 0 [] hidx]
  simp

theorem expectedLines_sum (self : KNNClassifier) (k : Int) (dataSet : List SparseMatrix01) :
    ∀ c : Nat, ((self.expectedLines k c dataSet).map (fun line => line.numCorrectClass)).sum =
      (self.totalCorrect k c dataSet : Nat) := by
  induction dataSet with
  | nil => intro c; simp [KNNClassifier.expectedLines, KNNClassifier.totalCorrect]
  | cons m rest ih =>
    intro c
    simp [KNNClassifier.expectedLines, KNNClassifier.totalCorrect, ih]

theorem correctIn_le (self : KNNClassifier) (k : Int) (c : Nat) (m : SparseMatrix01) :
    self.correctIn k c m ≤ m.nRows := by
  have h := List.countP_le_length (fun p => self.predicted k m p == some (c : Int))
    (l := List.range m.nRows)
  simpa [KNNClassifier.correctIn] using h

theorem expectedLines_getElem (self : KNNClassifier) (k : Int) (dataSet : List SparseMatrix01) :
    ∀ (c i : Nat) (m : SparseMatrix01), dataSet[i]? = some m →
      (self.expectedLines k c dataSet)[i]? =
        some { category := ((c + i : Nat) : Int), numExamples := m.nRows,
               numCorrectClass := (self.correctIn k (c + i) m : Int),
               pctCorrect := quotient (self.correctIn k (c + i) m : Int) (m.nRows : Int) } := by
  induction dataSet with
  | nil => intro c i m h; simp at h
  | cons m0 rest ih =>
    intro c i m h
    cases i with
    | zero =>
      simp only [List.getElem?_cons_zero, Option.some.injEq] at h
      subst h
      simp [KNNClassifier.expectedLines]
    | succ i =>
      simp only [List.getElem?_cons_succ] at h
      simp only [KNNClassifier.expectedLines, List.getElem?_cons_succ]
      rw [ih (c + 1) i m h]
      have : c + 1 + i = c + (i + 1) := by omega
      rw [this]

/-! ## Distances and exact matches -/

theorem sqDist_nonneg : ∀ x r : List Int, 0 ≤ sqDist x r
  | [], _ => by simp [sqDist]
  | _ :: _, [] => by simp [sqDist]
  | a :: x, b :: r => by
    have h := sqDist_nonneg x r
    have h2 := mul_self_nonneg (a - b)
    simp only [sqDist]
    omega

theorem sqDist_self : ∀ x : List Int, sqDist x x = 0
  | [] => by simp [sqDist]
  | a :: x => by simp [sqDist, sqDist_self x]

theorem sqDist_eq_zero : ∀ x r : List Int, x.length = r.length → sqDist x r = 0 → x = r
  | [], [], _, _ => rfl
  | [], _ :: _, hlen, _ => by simp at hlen
  | _ :: _, [], hlen, _ => by simp at hlen
  | a :: x, b :: r, hlen, h => by
    have h1 := sqDist_nonneg x r
    have h2 := mul_self_nonneg (a - b)
    simp only [sqDist] at h
    have h3 : (a - b) * (a - b) = 0 := by omega
    have h4 : sqDist x r = 0 := by omega
    have h5 : a = b := by
      have := mul_self_eq_zero.mp h3
      omega
    have h6 := sqDist_eq_zero x r (by simpa using hlen) h4
    rw [h5, h6]

theorem realScale_pos : ∀ fuel n : Nat, 0 < realScale fuel n
  | 0, _ => by simp [realScale]
  | fuel + 1, n => by
    have := realScale_pos fuel (n / 2)
    simp only [realScale]
    split <;> omega

theorem realScale_le : ∀ fuel n : Nat, 0 < n → realScale fuel n ≤ n
  | 0, n, h => by simp only [realScale]; omega
  | fuel + 1, n, h => by
    simp only [realScale]
    split
    · omega
    · have := realScale_le fuel (n / 2) (by omega)
      omega

/-- A natural number up to `2^24` is held exactly. -/
theorem toRealNat_exact (n : Nat) (h : n ≤ 16777216) : toRealNat n = n := by
  by_cases hlt : n < 16777216
  · have hs : realScale n n = 1 := by
      cases n with
      | zero => rfl
      | succ m => simp [realScale, hlt]
    simp [toRealNat, hs, Nat.mod_one]
  · have hn : n = 16777216 := by omega
    subst hn
    decide

theorem toRealNat_pos (n : Nat) (h : 0 < n) : 0 < toRealNat n := by
  have hscale := realScale_pos n n
  have hle := realScale_le n n h
  have hq : 0 < n / realScale n n := Nat.div_pos hle hscale
  simp only [toRealNat]
  split
  · exact Nat.mul_pos hq hscale
  · split
    · exact Nat.mul_pos hq hscale
    · exact Nat.mul_pos (by omega) hscale

theorem toReal_zero : toReal 0 = 0 := by decide

theorem toReal_pos (x : Int) (h : 0 < x) : 0 < toReal x := by
  have h1 : ¬ x < 0 := by omega
  have h2 := toRealNat_pos x.toNat (by omega)
  simp only [toReal, h1, if_false]
  omega

/-- An integer from 0 to `2^24` is held exactly. -/
theorem toReal_exact (x : Int) (h0 : 0 ≤ x) (h : x ≤ 16777216) : toReal x = x := by
  have h1 : ¬ x < 0 := by omega
  simp only [toReal, h1, if_false]
  rw [toRealNat_exact x.toNat (by omega)]
  omega

theorem realDist_nonneg (x r : List Int) : 0 ≤ realDist x r := by
  have h := sqDist_nonneg x r
  rcases lt_or_eq_of_le h with h1 | h1
  · exact le_of_lt (toReal_pos _ h1)
  · simp only [realDist, ← h1, toReal_zero]
    exact le_refl _

theorem realDist_self (x : List Int) : realDist x x = 0 := by
  simp only [realDist, sqDist_self, toReal_zero]

theorem realDist_eq_zero (x r : List Int) (hlen : x.length = r.length)
    (h : realDist x r = 0) : x = r := by
  apply sqDist_eq_zero x r hlen
  have h0 := sqDist_nonneg x r
  by_contra hne
  have hpos : 0 < sqDist x r := by omega
  have := toReal_pos _ hpos
  simp only [realDist] at h
  omega

/-- The squared distance of two vectors of zeros and ones is at most their length. -/
theorem sqDist_le_length : ∀ x r : List Int, (∀ a ∈ x, a = 0 ∨ a = 1) →
    (∀ b ∈ r, b = 0 ∨ b = 1) → sqDist x r ≤ (x.length : Int)
  | [], _, _, _ => by simp [sqDist]
  | _ :: x, [], _, _ => by
    simp only [sqDist, List.length_cons]
    omega
  | a :: x, b :: r, hx, hr => by
    have ih := sqDist_le_length x r (fun c hc => hx c (List.mem_cons_of_mem _ hc))
      (fun c hc => hr c (List.mem_cons_of_mem _ hc))
    have ha := hx a (List.mem_cons_self _ _)
    have hb := hr b (List.mem_cons_self _ _)
    have hsq : (a - b) * (a - b) ≤ 1 := by
      rcases ha with rfl | rfl <;> rcases hb with rfl | rfl <;> decide
    simp only [sqDist, List.length_cons, Nat.cast_add, Nat.cast_one]
    omega

theorem denseOf_binary (n : Nat) (indices : List Nat) :
    ∀ a ∈ denseOf n indices, a = 0 ∨ a = 1 := by
  intro a ha
  simp only [denseOf, List.mem_map] at ha
  obtain ⟨i, _, rfl⟩ := ha
  by_cases h : i ∈ indices <;> simp [h]

/-- With at most `2^24` columns, the distance of the densified query from a stored row of zeros
and ones is held exactly. -/
theorem realDist_exact (n : Nat) (indices : List Nat) (r : List Int) (hn : n ≤ 16777216)
    (hr : ∀ b ∈ r, b = 0 ∨ b = 1) :
    realDist (denseOf n indices) r = sqDist (denseOf n indices) r := by
  have h1 := sqDist_le_length (denseOf n indices) r (denseOf_binary n indices) hr
  rw [denseOf_length] at h1
  exact toReal_exact _ (sqDist_nonneg _ _) (by omega)

theorem denseOf_congr (n : Nat) (e q : List Nat) (h : SameExample e q) :
    denseOf n e = denseOf n q := by
  simp only [denseOf]
  apply List.map_congr_left
  intro i _
  simp [h i]

theorem denseOf_inj (n : Nat) (e q : List Nat) (he : ∀ i ∈ e, i < n) (hq : ∀ i ∈ q, i < n)
    (h : denseOf n e = denseOf n q) : SameExample e q := by
  have key : ∀ i, i < n → (i ∈ e ↔ i ∈ q) := by
    intro i hi
    have h1 : (denseOf n e)[i]? = (denseOf n q)[i]? := by rw [h]
    simp only [denseOf, List.getElem?_map, List.getElem?_range hi, Option.map_some',
      Option.some.injEq] at h1
    by_cases h2 : i ∈ e <;> by_cases h3 : i ∈ q <;> simp [h2, h3] at h1 ⊢
  intro i
  constructor
  · intro hi
    exact (key i (he i hi)).mp hi
  · intro hi
    exact (key i (hq i hi)).mpr hi

/-- When some stored row is the densified query itself, `classifyPattern` returns the label of
the first stored row that is the densified query. -/
theorem classifyPattern_exact (self : KNNClassifier) (row k : Int)
    (dataSet : SparseMatrix01) (indices : List Nat)
    (hlabels : self.knn_.rows.length = self.knn_categories_.length)
    (hcols : (self.knn_.nCols : Int) = self.inputSize_)
    (hrow : 0 ≤ row ∧ dataSet.rows[row.toNat]? = some indices)
    (hidx : ∀ i ∈ indices, (i : Int) < self.inputSize_)
    (hlen : ∀ r ∈ self.knn_.rows, r.length = self.inputSize_.toNat)
    (hmatch : denseOf self.inputSize_.toNat indices ∈ self.knn_.rows) :
    ∃ b label, self.classifyPattern row k dataSet = .ok (label, self) ∧
      self.knn_categories_[b]? = some label ∧
      self.knn_.rows[b]? = some (denseOf self.inputSize_.toNat indices) ∧
      ∀ j : Nat, j < b → self.knn_.rows[j]? ≠ some (denseOf self.inputSize_.toNat indices) := by
  have hstore : self.knn_.rows ≠ [] := List.ne_nil_of_mem hmatch
  obtain ⟨b, label, hcall, hlabel, d, hd, hmin, hfirst⟩ :=
    classifyPattern_first_min self row k dataSet indices hstore hlabels hcols hrow hidx
  set x := denseOf self.inputSize_.toNat indices with hx
  obtain ⟨j0, hj0⟩ := List.getElem?_of_mem hmatch
  have hd0 : d ≤ 0 := by
    have := hmin j0 (realDist x x) (by rw [List.getElem?_map, hj0]; rfl)
    rwa [realDist_self] at this
  rw [List.getElem?_map] at hd
  cases hb : self.knn_.rows[b]? with
  | none => rw [hb] at hd; simp at hd
  | some stored =>
    rw [hb] at hd
    simp only [Option.map_some', Option.some.injEq] at hd
    have hnn := realDist_nonneg x stored
    have hstored : stored.length = self.inputSize_.toNat := hlen stored (List.getElem?_mem hb)
    have heq : x = stored :=
      realDist_eq_zero x stored (by rw [hstored, hx, denseOf_length]) (by omega)
    refine ⟨b, label, hcall, hlabel, by rw [heq]; exact hb, ?_⟩
    intro j hj hjx
    have := hfirst j (realDist x x) hj (by rw [List.getElem?_map, hjx]; rfl)
    rw [realDist_self] at this
    omega

/-! ## Where the stored rows and labels come from -/

theorem appendedRows_row_length (n : Nat) (l : List SparseMatrix01) :
    ∀ r ∈ appendedRows n l, r.length = n := by
  induction l with
  | nil => intro r h; simp [appendedRows] at h
  | cons m rest ih =>
    intro r h
    simp only [appendedRows, List.mem_append, List.mem_map] at h
    rcases h with ⟨e, _, rfl⟩ | h
    · exact denseOf_length n e
    · exact ih r h

theorem appendedRows_mem (n : Nat) (l : List SparseMatrix01) (m : SparseMatrix01)
    (e : List Nat) (hm : m ∈ l) (he : e ∈ m.rows) : denseOf n e ∈ appendedRows n l := by
  induction l with
  | nil => simp at hm
  | cons m0 rest ih =>
    simp only [appendedRows, List.mem_append, List.mem_map]
    rcases List.mem_cons.mp hm with rfl | h
    · exact Or.inl ⟨e, he, rfl⟩
    · exact Or.inr (ih h)

/-- Every stored row and its label come from an example of the class the label names. -/
theorem appended_provenance (n : Nat) (l : List SparseMatrix01) :
    ∀ (c b : Nat) (r : List Int) (label : Int),
      (appendedRows n l)[b]? = some r → (appendedLabels c l)[b]? = some label →
      ∃ (i : Nat) (m : SparseMatrix01) (e : List Nat),
        l[i]? = some m ∧ e ∈ m.rows ∧ r = denseOf n e ∧ label = ((c + i : Nat) : Int) := by
  induction l with
  | nil => intro c b r label h; simp [appendedRows] at h
  | cons m rest ih =>
    intro c b r label hr hl
    simp only [appendedRows, appendedLabels] at hr hl
    by_cases hb : b < m.rows.length
    · rw [List.getElem?_append_left (by simpa using hb)] at hr
      rw [List.getElem?_append_left (by simpa [SparseMatrix01.nRows] using hb)] at hl
      simp only [List.getElem?_map, List.getElem?_eq_getElem hb, Option.map_some',
        Option.some.injEq] at hr
      have hl2 : label = (c : Int) := by
        have := List.getElem?_mem hl
        exact (List.mem_replicate.mp this).2
      exact ⟨0, m, m.rows[b], by simp, List.getElem_mem _, hr.symm, by simpa using hl2⟩
    · have hb2 : m.rows.length ≤ b := not_lt.mp hb
      rw [List.getElem?_append_right (by simpa using hb2)] at hr
      rw [List.getElem?_append_right (by simpa [SparseMatrix01.nRows] using hb2)] at hl
      simp only [List.length_map, List.length_replicate, SparseMatrix01.nRows] at hr hl
      obtain ⟨i, m1, e, h1, h2, h3, h4⟩ := ih (c + 1) _ r label hr hl
      refine ⟨i + 1, m1, e, by simpa using h1, h2, h3, ?_⟩
      rw [h4]
      congr 1
      omega

/-- Training a classifier the constructor gave: the state afterwards. -/
theorem trainDataset_fresh (numClasses inputSize : Int) (fresh : KNNClassifier)
    (trainingSet : List SparseMatrix01)
    (hfresh : KNNClassifier.construct numClasses inputSize = .ok fresh)
    (hsize : numClasses ≤ (trainingSet.length : Int))
    (hidx : ∀ m ∈ trainingSet.take numClasses.toNat, m.Below inputSize) :
    fresh.trainDataset trainingSet =
      .ok (trainedOn numClasses inputSize (trainingSet.take numClasses.toNat)) := by
  obtain ⟨hpos, hc⟩ := construct_ok _ _ _ hfresh
  subst hc
  have h := trainCategories_eq trainingSet numClasses.toNat 0
    { numClasses_ := numClasses, inputSize_ := inputSize,
      knn_ := { nCols := inputSize.toNat, rows := [] }, knn_categories_ := [] }
    (by simp only []; omega) (by omega) (by simpa using hidx)
  simp only [List.drop_zero, List.nil_append] at h
  rw [KNNClassifier.trainDataset, List.range_eq_range']
  exact h

/-- On a classifier trained on the collections `l`, a query that is identical to an example of
one of them gets the class of an example identical to the query. -/
theorem classifyPattern_trainedOn (numClasses inputSize : Int) (l : List SparseMatrix01)
    (row k : Int) (query : SparseMatrix01) (indices : List Nat)
    (hpos : 0 ≤ inputSize)
    (hrow : 0 ≤ row ∧ query.rows[row.toNat]? = some indices)
    (hidx : ∀ i ∈ indices, (i : Int) < inputSize)
    (hl : ∀ m ∈ l, m.Below inputSize)
    (hmatch : ∃ m ∈ l, ∃ e ∈ m.rows, SameExample e indices) :
    ∃ (c : Nat) (m : SparseMatrix01) (e : List Nat),
      (trainedOn numClasses inputSize l).classifyPattern row k query =
        .ok ((c : Int), trainedOn numClasses inputSize l) ∧
      l[c]? = some m ∧ e ∈ m.rows ∧ SameExample e indices := by
  obtain ⟨m0, hm0, e0, he0, hsame0⟩ := hmatch
  have hmem : denseOf inputSize.toNat indices ∈ appendedRows inputSize.toNat l := by
    rw [← denseOf_congr inputSize.toNat e0 indices hsame0]
    exact appendedRows_mem _ _ m0 e0 hm0 he0
  obtain ⟨b, label, hcall, hlabel, hb, _⟩ :=
    classifyPattern_exact (trainedOn numClasses inputSize l) row k query indices
      (by simp [trainedOn, appendedRows_length, appendedLabels_length])
      (by simp only [trainedOn]; omega) hrow hidx
      (appendedRows_row_length _ _) hmem
  obtain ⟨i, m, e, h1, h2, h3, h4⟩ :=
    appended_provenance inputSize.toNat l 0 b _ label hb hlabel
  simp only [zero_add] at h4
  subst h4
  refine ⟨i, m, e, hcall, h1, h2, ?_⟩
  apply denseOf_inj inputSize.toNat e indices
  · intro j hj
    have := hl m (List.getElem?_mem h1) e h2 j hj
    omega
  · intro j hj
    have := hidx j hj
    omega
  · exact h3.symm

theorem correctIn_all (self : KNNClassifier) (k : Int) (c : Nat) (m : SparseMatrix01)
    (h : ∀ p : Nat, p < m.nRows → self.predicted k m p = some (c : Int)) :
    self.correctIn k c m = m.nRows := by
  have hall : ∀ p ∈ List.range m.nRows,
      (fun p => self.predicted k m p == some (c : Int)) p = true := by
    intro p hp
    simp [h p (List.mem_range.mp hp)]
  simp only [KNNClassifier.correctIn]
  rw [List.countP_eq_length.mpr hall, List.length_range]

theorem totalCorrect_all (self : KNNClassifier) (k : Int) (l : List SparseMatrix01) :
    ∀ c0 : Nat,
      (∀ (i : Nat) (m : SparseMatrix01), l[i]? = some m →
        self.correctIn k (c0 + i) m = m.nRows) →
      self.totalCorrect k c0 l = totalRows l := by
  induction l with
  | nil => intro c0 _; rfl
  | cons m rest ih =>
    intro c0 h
    simp only [KNNClassifier.totalCorrect, totalRows]
    rw [ih (c0 + 1) (by
      intro i m1 hm1
      have := h (i + 1) m1 (by simpa using hm1)
      rwa [show c0 + (i + 1) = c0 + 1 + i by omega] at this)]
    have h0 := h 0 m (by simp)
    simp only [add_zero] at h0
    rw [h0]

theorem totalRows_single (l : List SparseMatrix01) (hone : ∀ m ∈ l, m.nRows = 1) :
    totalRows l = l.length := by
  induction l with
  | nil => rfl
  | cons m rest ih =>
    simp only [totalRows, List.length_cons, hone m (List.mem_cons_self _ _)]
    rw [ih (fun m1 h1 => hone m1 (List.mem_cons_of_mem _ h1))]
    omega

/-- With one example in every class, the stored row `j` is the densified example of class `j`
and its label is `j`. -/
theorem appended_single (n : Nat) (l : List SparseMatrix01) :
    (∀ m ∈ l, m.nRows = 1) →
    ∀ (c0 j : Nat) (m : SparseMatrix01), l[j]? = some m →
      ∃ e, m.rows = [e] ∧ (appendedRows n l)[j]? = some (denseOf n e) ∧
        (appendedLabels c0 l)[j]? = some ((c0 + j : Nat) : Int) := by
  induction l with
  | nil => intro _ c0 j m h; simp at h
  | cons m0 rest ih =>
    intro hone c0 j m h
    have h0 : m0.rows.length = 1 := hone m0 (List.mem_cons_self _ _)
    obtain ⟨e0, he0⟩ := List.length_eq_one.mp h0
    have hrest : ∀ m1 ∈ rest, m1.nRows = 1 := fun m1 h1 => hone m1 (List.mem_cons_of_mem _ h1)
    cases j with
    | zero =>
      simp only [List.getElem?_cons_zero, Option.some.injEq] at h
      subst h
      exact ⟨e0, he0, by simp [appendedRows, he0], by
        simp [appendedLabels, SparseMatrix01.nRows, he0]⟩
    | succ j =>
      simp only [List.getElem?_cons_succ] at h
      obtain ⟨e, h1, h2, h3⟩ := ih hrest (c0 + 1) j m h
      refine ⟨e, h1, by simpa [appendedRows, he0] using h2, ?_⟩
      have : c0 + 1 + j = c0 + (j + 1) := by omega
      rw [this] at h3
      simpa [appendedLabels, SparseMatrix01.nRows, he0] using h3

/-! ## The claims -/

theorem denseOf_nil (n : Nat) : denseOf n [] = List.replicate n 0 := by
  simp only [denseOf, List.not_mem_nil, if_false, List.map_const', List.length_range]

theorem sqDist_zeros_ones : ∀ n : Nat,
    sqDist (List.replicate n 0) (List.replicate n 1) = (n : Int)
  | 0 => by simp [sqDist]
  | n + 1 => by
    simp only [List.replicate_succ, sqDist, sqDist_zeros_ones n, Nat.cast_add, Nat.cast_one]
    omega

/-- The exact squared distances of the two rows of the wide store from the query without an
index: `2^24 + 1` for row 0 and `2^24` for row 1. -/
theorem wideClassifier_distances :
    sqDist (denseOf 16777217 []) (List.replicate 16777217 1) = 16777217 ∧
    sqDist (denseOf 16777217 []) (0 :: List.replicate 16777216 1) = 16777216 := by
  rw [denseOf_nil]
  refine ⟨sqDist_zeros_ones 16777217, ?_⟩
  have h : List.replicate 16777217 (0 : Int) = 0 :: List.replicate 16777216 0 := rfl
  have hcons : ∀ (a b : Int) (x r : List Int),
      sqDist (a :: x) (b :: r) = (a - b) * (a - b) + sqDist x r := fun _ _ _ _ => rfl
  rw [h, hcons, sqDist_zeros_ones 16777216]
  decide

/-- The wide store at the query without an index: both distances are the `Real` `2^24`, the
strict `<` of the loop never holds, and `classifyPattern` returns the label 0 of row 0. -/
theorem wideClassifier_classify :
    wideClassifier.classifyPattern 0 1 { rows := [[]] } = .ok (0, wideClassifier) := by
  obtain ⟨b, label, hcall, hlabel, d, hd, hmin, hfirst⟩ :=
    classifyPattern_first_min wideClassifier 0 1 { rows := [[]] } []
      (List.cons_ne_nil _ _) rfl rfl ⟨le_refl _, rfl⟩ (by intro i hi; cases hi)
  have hD : wideClassifier.knn_.rows.map (realDist (denseOf wideClassifier.inputSize_.toNat [])) =
      [16777216, 16777216] := by
    show [realDist (denseOf 16777217 []) (List.replicate 16777217 1),
      realDist (denseOf 16777217 []) (0 :: List.replicate 16777216 1)] = [16777216, 16777216]
    rw [realDist, realDist, wideClassifier_distances.1, wideClassifier_distances.2]
    decide
  rw [hD] at hd hfirst
  have hb : b = 0 := by
    rcases b with _ | _ | b
    · rfl
    · have h1 := hfirst 0 16777216 (by omega) rfl
      simp only [List.getElem?_cons_succ, List.getElem?_cons_zero, Option.some.injEq] at hd
      omega
    · simp at hd
  subst hb
  have hl : label = 0 := by
    have h0 : wideClassifier.knn_categories_[0]? = some 0 := rfl
    rw [h0] at hlabel
    exact (Option.some.inj hlabel).symm
  rw [hcall, hl]

/-- C1, as stated, fails on a store wider than `2^24` columns: for the wide store and the query
without an index, `classifyPattern` returns the label 0, which only row 0 has, and row 0 is not
at minimal squared distance from the query: row 1 is strictly closer (`2^24` against
`2^24 + 1`), but the two distances are the same `Real`. -/
theorem classifyPattern_nearest_wide :
    wideClassifier.classifyPattern 0 1 { rows := [[]] } = .ok (0, wideClassifier) ∧
    ¬ ∃ (i : Nat) (stored : List Int),
      wideClassifier.knn_categories_[i]? = some 0 ∧
      wideClassifier.knn_.rows[i]? = some stored ∧
      ∀ (j : Nat) (other : List Int), wideClassifier.knn_.rows[j]? = some other →
        ¬ sqDist (denseOf wideClassifier.inputSize_.toNat []) other <
            sqDist (denseOf wideClassifier.inputSize_.toNat []) stored := by
  refine ⟨wideClassifier_classify, ?_⟩
  rintro ⟨i, stored, hi, hstored, hmin⟩
  have hi0 : i = 0 := by
    rcases i with _ | _ | i
    · rfl
    · have h1 : wideClassifier.knn_categories_[1]? = some 1 := rfl
      rw [show (0 + 1 : Nat) = 1 from rfl, h1] at hi
      exact absurd (Option.some.inj hi) (by decide)
    · have h2 : wideClassifier.knn_categories_[i + 1 + 1]? = none := rfl
      rw [h2] at hi
      cases hi
  subst hi0
  have hrow0 : wideClassifier.knn_.rows[0]? = some (List.replicate 16777217 1) := rfl
  rw [hrow0] at hstored
  have hs := Option.some.inj hstored
  subst hs
  have hrow1 : wideClassifier.knn_.rows[1]? = some (0 :: List.replicate 16777216 1) := rfl
  have hn : wideClassifier.inputSize_.toNat = 16777217 := rfl
  have := hmin 1 _ hrow1
  rw [hn, wideClassifier_distances.1, wideClassifier_distances.2] at this
  exact this (by decide)

/-- C1, amended: on a store of zeros and ones with at most `2^24` columns, with at least one row
and as many labels as rows (and as many columns as `inputSize_`, as in every state the
constructor leads to), for a row of the data set that exists and whose indices are all below
`inputSize_`, and for every `k`, `classifyPattern` returns the label `knn_categories_[i]` of a
stored row `i` at minimal squared distance from the densified row: no stored row `j` is strictly
closer. -/
theorem classifyPattern_nearest (self : KNNClassifier) (row k : Int)
    (dataSet : SparseMatrix01) (indices : List Nat)
    (hstore : self.knn_.rows ≠ [])
    (hlabels : self.knn_.rows.length = self.knn_categories_.length)
    (hcols : (self.knn_.nCols : Int) = self.inputSize_)
    (hrow : 0 ≤ row ∧ dataSet.rows[row.toNat]? = some indices)
    (hidx : ∀ i ∈ indices, (i : Int) < self.inputSize_)
    (hsize : self.inputSize_ ≤ 16777216)
    (hbinary : ∀ r ∈ self.knn_.rows, IsBinaryRow self.knn_.nCols r) :
    ∃ (i : Nat) (label : Int) (stored : List Int),
      self.classifyPattern row k dataSet = .ok (label, self) ∧
      self.knn_categories_[i]? = some label ∧ self.knn_.rows[i]? = some stored ∧
      ∀ (j : Nat) (other : List Int), self.knn_.rows[j]? = some other →
        ¬ sqDist (denseOf self.inputSize_.toNat indices) other <
            sqDist (denseOf self.inputSize_.toNat indices) stored := by
  obtain ⟨b, label, hcall, hlabel, d, hd, hmin, _⟩ :=
    classifyPattern_first_min self row k dataSet indices hstore hlabels hcols hrow hidx
  have hexact : ∀ (j : Nat) (other : List Int), self.knn_.rows[j]? = some other →
      realDist (denseOf self.inputSize_.toNat indices) other =
        sqDist (denseOf self.inputSize_.toNat indices) other := by
    intro j other hj
    exact realDist_exact _ indices other (by omega) (hbinary other (List.getElem?_mem hj)).2
  rw [List.getElem?_map] at hd
  cases hb : self.knn_.rows[b]? with
  | none => rw [hb] at hd; simp at hd
  | some stored =>
    rw [hb] at hd
    simp only [Option.map_some', Option.some.injEq] at hd
    rw [hexact b stored hb] at hd
    refine ⟨b, label, stored, hcall, hlabel, hb, ?_⟩
    intro j other hj
    have := hmin j (realDist (denseOf self.inputSize_.toNat indices) other)
      (by rw [List.getElem?_map, hj]; rfl)
    rw [hexact j other hj] at this
    rw [hd]
    exact not_lt.mpr this

/-- C1, amended, at the scenario of the specification: the query with the indices 0, 1, 2, 3. -/
theorem classifyPattern_nearest_witness :
    ∃ (i : Nat) (label : Int) (stored : List Int),
      scenarioClassifier.classifyPattern 0 1 { rows := [[0, 1, 2, 3]] } =
        .ok (label, scenarioClassifier) ∧
      scenarioClassifier.knn_categories_[i]? = some label ∧
      scenarioClassifier.knn_.rows[i]? = some stored ∧
      ∀ (j : Nat) (other : List Int), scenarioClassifier.knn_.rows[j]? = some other →
        ¬ sqDist (denseOf scenarioClassifier.inputSize_.toNat [0, 1, 2, 3]) other <
            sqDist (denseOf scenarioClassifier.inputSize_.toNat [0, 1, 2, 3]) stored :=
  classifyPattern_nearest scenarioClassifier 0 1 { rows := [[0, 1, 2, 3]] } [0, 1, 2, 3]
    (by decide) (by decide) (by decide) ⟨by decide, by decide⟩ (by decide) (by decide)
    (by decide)

/-- C2, as stated, fails on a store wider than `2^24` columns: for the wide store and the query
without an index, the smallest index among the stored rows at minimal squared distance is 1,
with label 1 (row 0 is strictly farther), and `classifyPattern` returns the label 0 of row 0:
for the loop the two distances are the same `Real`, a tie that the earlier row wins. -/
theorem classifyPattern_first_occurrence_wide :
    wideClassifier.classifyPattern 0 1 { rows := [[]] } = .ok (0, wideClassifier) ∧
    wideClassifier.knn_categories_[1]? = some 1 ∧
    ∃ stored first : List Int,
      wideClassifier.knn_.rows[1]? = some stored ∧ wideClassifier.knn_.rows[0]? = some first ∧
      (∀ (j : Nat) (other : List Int), wideClassifier.knn_.rows[j]? = some other →
        sqDist (denseOf wideClassifier.inputSize_.toNat []) stored ≤
          sqDist (denseOf wideClassifier.inputSize_.toNat []) other) ∧
      sqDist (denseOf wideClassifier.inputSize_.toNat []) stored <
        sqDist (denseOf wideClassifier.inputSize_.toNat []) first := by
  have hn : wideClassifier.inputSize_.toNat = 16777217 := rfl
  refine ⟨wideClassifier_classify, rfl, 0 :: List.replicate 16777216 1,
    List.replicate 16777217 1, rfl, rfl, ?_, ?_⟩
  · intro j other hj
    rw [hn, wideClassifier_distances.2]
    rcases j with _ | _ | j
    · have h0 : wideClassifier.knn_.rows[0]? = some (List.replicate 16777217 1) := rfl
      rw [h0] at hj
      rw [← Option.some.inj hj, wideClassifier_distances.1]
      decide
    · have h1 : wideClassifier.knn_.rows[1]? = some (0 :: List.replicate 16777216 1) := rfl
      rw [show (0 + 1 : Nat) = 1 from rfl, h1] at hj
      rw [← Option.some.inj hj, wideClassifier_distances.2]
    · have h2 : wideClassifier.knn_.rows[j + 1 + 1]? = none := rfl
      rw [h2] at hj
      cases hj
  · rw [hn, wideClassifier_distances.1, wideClassifier_distances.2]
    decide

/-- C2, amended: under the conditions of C1, amended (a store of zeros and ones with at most
`2^24` columns), the label `classifyPattern` returns is the label of the smallest index among
the stored rows at minimal distance: the selected row `i` is at minimal distance, every row
before it is strictly farther, and so every row `j` that is as close as the selected one has
`i ≤ j`. -/
theorem classifyPattern_first_occurrence (self : KNNClassifier) (row k : Int)
    (dataSet : SparseMatrix01) (indices : List Nat)
    (hstore : self.knn_.rows ≠ [])
    (hlabels : self.knn_.rows.length = self.knn_categories_.length)
    (hcols : (self.knn_.nCols : Int) = self.inputSize_)
    (hrow : 0 ≤ row ∧ dataSet.rows[row.toNat]? = some indices)
    (hidx : ∀ i ∈ indices, (i : Int) < self.inputSize_)
    (hsize : self.inputSize_ ≤ 16777216)
    (hbinary : ∀ r ∈ self.knn_.rows, IsBinaryRow self.knn_.nCols r) :
    ∃ (i : Nat) (label : Int) (stored : List Int),
      self.classifyPattern row k dataSet = .ok (label, self) ∧
      self.knn_categories_[i]? = some label ∧ self.knn_.rows[i]? = some stored ∧
      (∀ (j : Nat) (other : List Int), self.knn_.rows[j]? = some other →
        sqDist (denseOf self.inputSize_.toNat indices) stored ≤
          sqDist (denseOf self.inputSize_.toNat indices) other) ∧
      (∀ (j : Nat) (other : List Int), j < i → self.knn_.rows[j]? = some other →
        sqDist (denseOf self.inputSize_.toNat indices) stored <
          sqDist (denseOf self.inputSize_.toNat indices) other) ∧
      (∀ (j : Nat) (other : List Int), self.knn_.rows[j]? = some other →
        sqDist (denseOf self.inputSize_.toNat indices) other =
          sqDist (denseOf self.inputSize_.toNat indices) stored → i ≤ j) := by
  obtain ⟨b, label, hcall, hlabel, d, hd, hmin, hfirst⟩ :=
    classifyPattern_first_min self row k dataSet indices hstore hlabels hcols hrow hidx
  have hexact : ∀ (j : Nat) (other : List Int), self.knn_.rows[j]? = some other →
      realDist (denseOf self.inputSize_.toNat indices) other =
        sqDist (denseOf self.inputSize_.toNat indices) other := by
    intro j other hj
    exact realDist_exact _ indices other (by omega) (hbinary other (List.getElem?_mem hj)).2
  rw [List.getElem?_map] at hd
  cases hb : self.knn_.rows[b]? with
  | none => rw [hb] at hd; simp at hd
  | some stored =>
    rw [hb] at hd
    simp only [Option.map_some', Option.some.injEq] at hd
    rw [hexact b stored hb] at hd
    have hlt : ∀ (j : Nat) (other : List Int), j < b → self.knn_.rows[j]? = some other →
        sqDist (denseOf self.inputSize_.toNat indices) stored <
          sqDist (denseOf self.inputSize_.toNat indices) other := by
      intro j other hjb hj
      have := hfirst j _ hjb (by rw [List.getElem?_map, hj]; rfl)
      rw [hexact j other hj] at this
      rw [hd]
      exact this
    refine ⟨b, label, stored, hcall, hlabel, hb, ?_, hlt, ?_⟩
    · intro j other hj
      have := hmin j _ (by rw [List.getElem?_map, hj]; rfl)
      rw [hexact j other hj] at this
      rw [hd]
      exact this
    · intro j other hj heq
      by_contra hcon
      have := hlt j other (by omega) hj
      omega

/-- C2, amended, on a store with two rows at the same distance from the query: the store holds
the rows `[1, 0]` (label 7) and `[0, 1]` (label 8), the query is the example without an index. -/
theorem classifyPattern_first_occurrence_witness :
    ∃ (i : Nat) (label : Int) (stored : List Int),
      KNNClassifier.classifyPattern
        { numClasses_ := 9, inputSize_ := 2, knn_ := { nCols := 2, rows := [[1, 0], [0, 1]] },
          knn_categories_ := [7, 8] } 0 3 { rows := [[]] } =
        .ok (label, { numClasses_ := 9, inputSize_ := 2,
                      knn_ := { nCols := 2, rows := [[1, 0], [0, 1]] },
                      knn_categories_ := [7, 8] }) ∧
      [(7 : Int), 8][i]? = some label ∧ [[(1 : Int), 0], [0, 1]][i]? = some stored ∧
      (∀ (j : Nat) (other : List Int), [[(1 : Int), 0], [0, 1]][j]? = some other →
        sqDist (denseOf 2 []) stored ≤ sqDist (denseOf 2 []) other) ∧
      (∀ (j : Nat) (other : List Int), j < i → [[(1 : Int), 0], [0, 1]][j]? = some other →
        sqDist (denseOf 2 []) stored < sqDist (denseOf 2 []) other) ∧
      (∀ (j : Nat) (other : List Int), [[(1 : Int), 0], [0, 1]][j]? = some other →
        sqDist (denseOf 2 []) other = sqDist (denseOf 2 []) stored → i ≤ j) :=
  classifyPattern_first_occurrence
    { numClasses_ := 9, inputSize_ := 2, knn_ := { nCols := 2, rows := [[1, 0], [0, 1]] },
      knn_categories_ := [7, 8] } 0 3 { rows := [[]] } []
    (by decide) (by decide) (by decide) ⟨by decide, by decide⟩ (by decide) (by decide)
    (by decide)

/-- C3: in a state with as many columns as `inputSize_` (every state the constructor leads to),
on a data set with at least `numClasses_` collections whose indices are all below `inputSize_`,
`trainDataset` returns a state that keeps the rows and labels it had in front, and has after
them, for class 0 first, then class 1, up to class `numClasses_ - 1`, one row and one label for
every example of the class in row order: the densified example and the class index.  The store
grows by the sum of the row counts of the collections `0 .. numClasses_ - 1`. -/
theorem trainDataset_appends (self : KNNClassifier) (trainingSet : List SparseMatrix01)
    (hcols : (self.knn_.nCols : Int) = self.inputSize_)
    (hsize : self.numClasses_ ≤ (trainingSet.length : Int))
    (hidx : ∀ m ∈ trainingSet, m.Below self.inputSize_) :
    ∃ trained : KNNClassifier, self.trainDataset trainingSet = .ok trained ∧
      trained.knn_.rows = self.knn_.rows ++
        appendedRows self.inputSize_.toNat (trainingSet.take self.numClasses_.toNat) ∧
      trained.knn_categories_ = self.knn_categories_ ++
        appendedLabels 0 (trainingSet.take self.numClasses_.toNat) ∧
      trained.knn_.nRows = self.knn_.nRows + totalRows (trainingSet.take self.numClasses_.toNat) ∧
      trained.knn_categories_.length =
        self.knn_categories_.length + totalRows (trainingSet.take self.numClasses_.toNat) ∧
      trained.numClasses_ = self.numClasses_ ∧ trained.inputSize_ = self.inputSize_ ∧
      trained.knn_.nCols = self.knn_.nCols := by
  have h := trainCategories_eq trainingSet self.numClasses_.toNat 0 self hcols (by omega)
    (by
      intro m hm
      exact hidx m (List.mem_of_mem_take (by simpa using hm)))
  simp only [List.drop_zero] at h
  rw [KNNClassifier.trainDataset, List.range_eq_range', h]
  refine ⟨_, rfl, rfl, rfl, ?_, ?_, rfl, rfl, rfl⟩
  · simp [NearestNeighbor.nRows, appendedRows_length]
  · simp [appendedLabels_length]

/-- C3 at the scenario of the specification, trained into the state of the constructor. -/
theorem trainDataset_appends_witness :
    ∃ trained : KNNClassifier,
      KNNClassifier.trainDataset
        { numClasses_ := 2, inputSize_ := 4, knn_ := { nCols := 4, rows := [] },
          knn_categories_ := [] } scenarioDataset = .ok trained ∧
      trained.knn_.rows = [] ++ appendedRows (4 : Int).toNat (scenarioDataset.take (2 : Int).toNat) ∧
      trained.knn_categories_ = [] ++ appendedLabels 0 (scenarioDataset.take (2 : Int).toNat) ∧
      trained.knn_.nRows =
        NearestNeighbor.nRows { nCols := 4, rows := [] } +
          totalRows (scenarioDataset.take (2 : Int).toNat) ∧
      trained.knn_categories_.length =
        ([] : List Int).length + totalRows (scenarioDataset.take (2 : Int).toNat) ∧
      trained.numClasses_ = 2 ∧ trained.inputSize_ = 4 ∧ trained.knn_.nCols = 4 :=
  trainDataset_appends
    { numClasses_ := 2, inputSize_ := 4, knn_ := { nCols := 4, rows := [] },
      knn_categories_ := [] } scenarioDataset (by decide) (by decide) (by decide)

/-- C4: in every state reached from the constructor by calls of `trainDataset`,
`classifyPattern` and `classifyDataset` in any order, the number of rows of `knn_` is the length
of `knn_categories_`. -/
theorem reachable_rows_eq_labels (c : KNNClassifier) (h : Reachable c) :
    c.knn_.nRows = c.knn_categories_.length := by
  induction h with
  | construct numClasses inputSize c hc =>
    rw [(construct_ok _ _ _ hc).2]
    rfl
  | trainDataset c c1 trainingSet _ htrain ih =>
    obtain ⟨_, _, _, rs, ls, h1, h2, h3, _⟩ := trainCategories_ok _ _ _ _ htrain
    simp only [NearestNeighbor.nRows] at ih ⊢
    rw [h1, h2, List.length_append, List.length_append, ih, h3]
  | classifyPattern c c1 row k label dataSet _ hcall ih =>
    rw [classifyPattern_ok _ _ _ _ _ _ hcall]
    exact ih
  | classifyDataset c c1 k dataSet report _ hcall ih =>
    rw [classifyDataset_ok _ _ _ _ _ hcall]
    exact ih

/-- C4 at the state of the scenario: constructed, trained on the scenario, one pattern
classified. -/
theorem reachable_rows_eq_labels_witness :
    scenarioClassifier.knn_.nRows = scenarioClassifier.knn_categories_.length :=
  reachable_rows_eq_labels scenarioClassifier
    (Reachable.classifyPattern scenarioClassifier scenarioClassifier 0 1 1
      { rows := [[0, 1, 2, 3]] }
      (Reachable.trainDataset
        { numClasses_ := 2, inputSize_ := 4, knn_ := { nCols := 4, rows := [] },
          knn_categories_ := [] } scenarioClassifier scenarioDataset
        (Reachable.construct 2 4 _ rfl) rfl)
      rfl)

theorem classifyRows_k (k1 k2 category : Int) (m : SparseMatrix01) (ps : List Nat) :
    ∀ (self : KNNClassifier) (n : Counters),
      KNNClassifier.classifyRows k1 category m self ps n =
        KNNClassifier.classifyRows k2 category m self ps n := by
  induction ps with
  | nil => intro self n; rfl
  | cons p rest ih =>
    intro self n
    simp only [KNNClassifier.classifyRows]
    have hk : self.classifyPattern (p : Int) k1 m = self.classifyPattern (p : Int) k2 m := rfl
    rw [hk]
    split
    · rfl
    · split
      · exact ih _ _
      · exact ih _ _

theorem classifyCategories_k (k1 k2 : Int) (dataSet : List SparseMatrix01) :
    ∀ (self : KNNClassifier) (category : Nat) (numCorrect numInferences : Int)
      (lines : List CategoryLine),
      KNNClassifier.classifyCategories k1 self dataSet category numCorrect numInferences lines =
        KNNClassifier.classifyCategories k2 self dataSet category numCorrect numInferences
          lines := by
  induction dataSet with
  | nil => intro self category numCorrect numInferences lines; rfl
  | cons m rest ih =>
    intro self category numCorrect numInferences lines
    simp only [KNNClassifier.classifyCategories]
    rw [classifyRows_k k1 k2]
    split
    · rfl
    · exact ih _ _ _ _ _

/-- C5: the parameter `k` is inert: for every state, row, data set and every two values `k1` and
`k2`, `classifyPattern` gives the same result (a label, or the same fault) for `k1` as for `k2`,
and `classifyDataset` gives the same result, its counts `numCorrect` and `numInferences`
included. -/
theorem k_is_inert (self : KNNClassifier) (row k1 k2 : Int) (dataSet : SparseMatrix01)
    (dataSets : List SparseMatrix01) :
    self.classifyPattern row k1 dataSet = self.classifyPattern row k2 dataSet ∧
    self.classifyDataset k1 dataSets = self.classifyDataset k2 dataSets := by
  refine ⟨rfl, ?_⟩
  simp only [KNNClassifier.classifyDataset]
  rw [classifyCategories_k k1 k2]

/-- C9: on a store with at least one row (and as many labels as rows, as many columns as
`inputSize_`), for a data set with at least one example whose indices are all below
`inputSize_`, `classifyDataset` returns with `numInferences` the number of examples of the data
set, with `numCorrect` the sum over the collections of the number of examples whose predicted
label is the collection index, which is the sum of the per-class counts `numCorrectClass`, and
with the overall accuracy the first sum divided by the second, times 100, as a rational. -/
theorem classifyDataset_overall (self : KNNClassifier) (k : Int)
    (dataSet : List SparseMatrix01)
    (hstore : self.knn_.rows ≠ [])
    (hlabels : self.knn_.rows.length = self.knn_categories_.length)
    (hcols : (self.knn_.nCols : Int) = self.inputSize_)
    (hidx : ∀ m ∈ dataSet, m.Below self.inputSize_)
    (hexamples : 0 < totalRows dataSet) :
    ∃ report : Report, self.classifyDataset k dataSet = .ok (report, self) ∧
      report.numInferences = (totalRows dataSet : Nat) ∧
      report.numCorrect = (self.totalCorrect k 0 dataSet : Nat) ∧
      report.numCorrect = (report.lines.map (fun line => line.numCorrectClass)).sum ∧
      report.overallAccuracy =
        some ((self.totalCorrect k 0 dataSet : ℚ) / (totalRows dataSet : ℚ) * 100) := by
  rw [classifyDataset_eq self k dataSet hstore hlabels hcols hidx]
  refine ⟨_, rfl, rfl, rfl, ?_, ?_⟩
  · simp only [expectedLines_sum]
  · have hne : ¬ ((totalRows dataSet : Nat) : Int) = 0 := by omega
    simp only [quotient, hne, if_false, Option.some.injEq]
    push_cast
    ring

/-- C9 at the scenario of the specification. -/
theorem classifyDataset_overall_witness :
    ∃ report : Report, scenarioClassifier.classifyDataset 1 scenarioDataset =
        .ok (report, scenarioClassifier) ∧
      report.numInferences = (totalRows scenarioDataset : Nat) ∧
      report.numCorrect = (scenarioClassifier.totalCorrect 1 0 scenarioDataset : Nat) ∧
      report.numCorrect = (report.lines.map (fun line => line.numCorrectClass)).sum ∧
      report.overallAccuracy =
        some ((scenarioClassifier.totalCorrect 1 0 scenarioDataset : ℚ) /
          (totalRows scenarioDataset : ℚ) * 100) :=
  classifyDataset_overall scenarioClassifier 1 scenarioDataset (by decide) (by decide)
    (by decide) (by decide) (by decide)

/-- C10, as stated, fails on a collection without examples: with the classifier of the scenario
and a data set whose class 0 holds the all-zero example and whose class 1 holds no example,
`classifyDataset` returns, and the accuracy it reports for class 1 divides by zero: it is not a
number, and so not a value of `[0,1]`. -/
theorem classifyDataset_class_without_examples :
    ∃ (report : Report) (line : CategoryLine),
      scenarioClassifier.classifyDataset 1 [{ rows := [[]] }, { rows := [] }] =
        .ok (report, scenarioClassifier) ∧
      report.lines[1]? = some line ∧ line.category = 1 ∧ line.numExamples = 0 ∧
      ¬ ∃ q : ℚ, line.pctCorrect = some q ∧ 0 ≤ q ∧ q ≤ 1 := by
  refine ⟨_, { category := 1, numExamples := 0, numCorrectClass := 0, pctCorrect := none },
    rfl, rfl, rfl, rfl, ?_⟩
  rintro ⟨q, hq, _⟩
  cases hq

/-- C10, amended: on a store with at least one row (and as many labels as rows, as many columns
as `inputSize_`), for a data set whose indices are all below `inputSize_`, `classifyDataset`
returns one line for every collection, and for every collection that holds at least one example
the accuracy of its line is the number of correct predictions of the class divided by the number
of examples of the class, and lies in `[0,1]`. -/
theorem classifyDataset_class_accuracy (self : KNNClassifier) (k : Int)
    (dataSet : List SparseMatrix01)
    (hstore : self.knn_.rows ≠ [])
    (hlabels : self.knn_.rows.length = self.knn_categories_.length)
    (hcols : (self.knn_.nCols : Int) = self.inputSize_)
    (hidx : ∀ m ∈ dataSet, m.Below self.inputSize_) :
    ∃ report : Report, self.classifyDataset k dataSet = .ok (report, self) ∧
      ∀ (c : Nat) (m : SparseMatrix01), dataSet[c]? = some m → m.nRows ≠ 0 →
        ∃ (line : CategoryLine) (q : ℚ), report.lines[c]? = some line ∧
          line.category = (c : Int) ∧ line.numExamples = m.nRows ∧
          line.numCorrectClass = (self.correctIn k c m : Nat) ∧
          line.pctCorrect = some q ∧
          q = (line.numCorrectClass : ℚ) / (line.numExamples : ℚ) ∧ 0 ≤ q ∧ q ≤ 1 := by
  rw [classifyDataset_eq self k dataSet hstore hlabels hcols hidx]
  refine ⟨_, rfl, ?_⟩
  intro c m hm hrows
  have hline := expectedLines_getElem self k dataSet 0 c m hm
  simp only [zero_add] at hline
  have hne : ¬ ((m.nRows : Nat) : Int) = 0 := by omega
  have hle := correctIn_le self k c m
  have hpos : (0 : ℚ) < (m.nRows : ℚ) := by
    have : 0 < m.nRows := Nat.pos_of_ne_zero hrows
    exact_mod_cast this
  refine ⟨_, ((self.correctIn k c m : Nat) : ℚ) / ((m.nRows : Nat) : ℚ), hline, rfl, rfl, rfl,
    ?_, ?_, ?_, ?_⟩
  · simp only [quotient, hne, if_false, Option.some.injEq]
    push_cast
    rfl
  · push_cast
    rfl
  · positivity
  · rw [div_le_one hpos]
    exact_mod_cast hle

/-- C10, amended, at the scenario of the specification. -/
theorem classifyDataset_class_accuracy_witness :
    ∃ report : Report, scenarioClassifier.classifyDataset 1 scenarioDataset =
        .ok (report, scenarioClassifier) ∧
      ∀ (c : Nat) (m : SparseMatrix01), scenarioDataset[c]? = some m → m.nRows ≠ 0 →
        ∃ (line : CategoryLine) (q : ℚ), report.lines[c]? = some line ∧
          line.category = (c : Int) ∧ line.numExamples = m.nRows ∧
          line.numCorrectClass = (scenarioClassifier.correctIn 1 c m : Nat) ∧
          line.pctCorrect = some q ∧
          q = (line.numCorrectClass : ℚ) / (line.numExamples : ℚ) ∧ 0 ≤ q ∧ q ≤ 1 :=
  classifyDataset_class_accuracy scenarioClassifier 1 scenarioDataset (by decide) (by decide)
    (by decide) (by decide)

/-- C8: for every `inputSize > 0`, a classifier constructed with `numClasses = 2` and trained on
a data set whose class 0 holds one or more all-zero examples (no index) and whose class 1 holds
one or more all-one examples (the indices `0 .. inputSize - 1`) classifies an all-zero query as
class 0 and an all-one query as class 1. -/
theorem zeros_and_ones_classified (inputSize : Int) (zeros ones : SparseMatrix01)
    (rest : List SparseMatrix01) (k : Int)
    (queryZero : SparseMatrix01) (rowZero : Int)
    (queryOne : SparseMatrix01) (rowOne : Int) (allOne : List Nat)
    (hsize : 0 < inputSize)
    (hzeros : zeros.rows ≠ [] ∧ ∀ e ∈ zeros.rows, e = [])
    (hones : ones.rows ≠ [] ∧ ∀ e ∈ ones.rows, ∀ i : Nat, i ∈ e ↔ (i : Int) < inputSize)
    (hqueryZero : 0 ≤ rowZero ∧ queryZero.rows[rowZero.toNat]? = some [])
    (hqueryOne : 0 ≤ rowOne ∧ queryOne.rows[rowOne.toNat]? = some allOne)
    (hallOne : ∀ i : Nat, i ∈ allOne ↔ (i : Int) < inputSize) :
    ∃ fresh trained : KNNClassifier,
      KNNClassifier.construct 2 inputSize = .ok fresh ∧
      fresh.trainDataset (zeros :: ones :: rest) = .ok trained ∧
      trained.classifyPattern rowZero k queryZero = .ok (0, trained) ∧
      trained.classifyPattern rowOne k queryOne = .ok (1, trained) := by
  have hfresh : KNNClassifier.construct 2 inputSize =
      .ok { numClasses_ := 2, inputSize_ := inputSize,
            knn_ := { nCols := inputSize.toNat, rows := [] }, knn_categories_ := [] } := by
    have h : ¬ inputSize ≤ 0 := by omega
    simp [KNNClassifier.construct, NearestNeighbor.construct, h]
  have hl : ∀ m ∈ [zeros, ones], m.Below inputSize := by
    intro m hm e he i hi
    simp only [List.mem_cons, List.mem_singleton, List.not_mem_nil, or_false] at hm
    rcases hm with rfl | rfl
    · rw [hzeros.2 e he] at hi
      simp at hi
    · exact (hones.2 e he i).mp hi
  have htrain := trainDataset_fresh 2 inputSize _ (zeros :: ones :: rest) hfresh
    (by simp only [List.length_cons]; omega) (by simpa using hl)
  have htake : List.take (2 : Int).toNat (zeros :: ones :: rest) = [zeros, ones] := by
    simp
  rw [htake] at htrain
  obtain ⟨ez, hez⟩ := List.exists_mem_of_ne_nil _ hzeros.1
  obtain ⟨eo, heo⟩ := List.exists_mem_of_ne_nil _ hones.1
  have hzero0 : (0 : Nat) ∈ allOne := (hallOne 0).mpr (by simpa using hsize)
  refine ⟨_, _, hfresh, htrain, ?_, ?_⟩
  · obtain ⟨c, m, e, hcall, hm, he, hsame⟩ :=
      classifyPattern_trainedOn 2 inputSize [zeros, ones] rowZero k queryZero []
        (by omega) hqueryZero (by simp) hl
        ⟨zeros, by simp, ez, hez, by rw [hzeros.2 ez hez]; intro i; rfl⟩
    rcases c with _ | _ | c
    · simpa using hcall
    · simp only [zero_add, List.getElem?_cons_succ, List.getElem?_cons_zero,
        Option.some.injEq] at hm
      subst hm
      have h0 : (0 : Nat) ∈ e := (hones.2 e he 0).mpr (by simpa using hsize)
      exact absurd ((hsame 0).mp h0) (by simp)
    · simp at hm
  · obtain ⟨c, m, e, hcall, hm, he, hsame⟩ :=
      classifyPattern_trainedOn 2 inputSize [zeros, ones] rowOne k queryOne allOne
        (by omega) hqueryOne (fun i hi => (hallOne i).mp hi) hl
        ⟨ones, by simp, eo, heo, fun i => by rw [hones.2 eo heo i, hallOne i]⟩
    rcases c with _ | _ | c
    · simp only [List.getElem?_cons_zero, Option.some.injEq] at hm
      subst hm
      have h0 : (0 : Nat) ∈ e := (hsame 0).mpr hzero0
      rw [hzeros.2 e he] at h0
      simp at h0
    · simpa using hcall
    · simp at hm

/-- C8 at the scenario of the specification: `inputSize = 4`, the query with the indices
0, 1, 2, 3 gets class 1 and the query without an index gets class 0. -/
theorem zeros_and_ones_classified_witness :
    ∃ fresh trained : KNNClassifier,
      KNNClassifier.construct 2 4 = .ok fresh ∧
      fresh.trainDataset [{ rows := [[]] }, { rows := [[0, 1, 2, 3]] }] = .ok trained ∧
      trained.classifyPattern 1 1 { rows := [[0, 1, 2, 3], []] } = .ok (0, trained) ∧
      trained.classifyPattern 0 1 { rows := [[0, 1, 2, 3], []] } = .ok (1, trained) :=
  zeros_and_ones_classified 4 { rows := [[]] } { rows := [[0, 1, 2, 3]] } [] 1
    { rows := [[0, 1, 2, 3], []] } 1 { rows := [[0, 1, 2, 3], []] } 0 [0, 1, 2, 3]
    (by decide) ⟨by decide, by decide⟩
    ⟨by decide, by
      intro e he i
      simp only [List.mem_singleton] at he
      subst he
      simp only [List.mem_cons, List.mem_singleton, List.not_mem_nil, or_false]
      omega⟩
    ⟨by decide, by decide⟩ ⟨by decide, by decide⟩
    (by
      intro i
      simp only [List.mem_cons, List.mem_singleton, List.not_mem_nil, or_false]
      omega)

/-- C7: for every data set with exactly `numClasses` collections, at least one example, all
indices below `inputSize`, and no example (index set) in two different classes, a classifier the
constructor gave, trained on the data set with `trainDataset`, counts every example of the same
data set as correct in `classifyDataset`: `numCorrect = numInferences`, the overall accuracy is
100, and for every class with at least one example all examples are correct and the accuracy of
the class is 1. -/
theorem self_evaluation_perfect (numClasses inputSize k : Int) (fresh : KNNClassifier)
    (dataSet : List SparseMatrix01)
    (hfresh : KNNClassifier.construct numClasses inputSize = .ok fresh)
    (hclasses : (dataSet.length : Int) = numClasses)
    (hexamples : 0 < totalRows dataSet)
    (hidx : ∀ m ∈ dataSet, m.Below inputSize)
    (hdistinct : ∀ (c1 c2 : Nat) (m1 m2 : SparseMatrix01) (e1 e2 : List Nat),
      dataSet[c1]? = some m1 → dataSet[c2]? = some m2 → e1 ∈ m1.rows → e2 ∈ m2.rows →
      SameExample e1 e2 → c1 = c2) :
    ∃ (trained : KNNClassifier) (report : Report),
      fresh.trainDataset dataSet = .ok trained ∧
      trained.classifyDataset k dataSet = .ok (report, trained) ∧
      report.numCorrect = report.numInferences ∧
      report.numInferences = (totalRows dataSet : Nat) ∧
      report.overallAccuracy = some 100 ∧
      ∀ (c : Nat) (m : SparseMatrix01), dataSet[c]? = some m → m.nRows ≠ 0 →
        ∃ line : CategoryLine, report.lines[c]? = some line ∧
          line.numCorrectClass = (line.numExamples : Nat) ∧ line.numExamples = m.nRows ∧
          line.pctCorrect = some 1 := by
  have hpos : 0 < inputSize := (construct_ok _ _ _ hfresh).1
  have htake : dataSet.take numClasses.toNat = dataSet := by
    apply List.take_of_length_le
    omega
  have htrain := trainDataset_fresh numClasses inputSize fresh dataSet hfresh (by omega)
    (by rw [htake]; exact hidx)
  rw [htake] at htrain
  set trained := trainedOn numClasses inputSize dataSet with htrained
  have hrowsne : 0 < (appendedRows inputSize.toNat dataSet).length := by
    rw [appendedRows_length]
    exact hexamples
  have hstore : trained.knn_.rows ≠ [] := by
    simp only [htrained, trainedOn]
    exact List.ne_nil_of_length_pos hrowsne
  have hlabels : trained.knn_.rows.length = trained.knn_categories_.length := by
    simp [htrained, trainedOn, appendedRows_length, appendedLabels_length]
  have hcols : (trained.knn_.nCols : Int) = trained.inputSize_ := by
    simp only [htrained, trainedOn]
    omega
  have hcorrect : ∀ (c : Nat) (m : SparseMatrix01), dataSet[c]? = some m →
      trained.correctIn k c m = m.nRows := by
    intro c m hm
    apply correctIn_all
    intro p hp
    have hp2 : p < m.rows.length := hp
    have hmem : m.rows[p] ∈ m.rows := List.getElem_mem _
    obtain ⟨c1, m1, e1, hcall, hm1, he1, hsame⟩ :=
      classifyPattern_trainedOn numClasses inputSize dataSet (p : Int) k m m.rows[p]
        (by omega) ⟨by omega, by simp [List.getElem?_eq_getElem hp2]⟩
        (hidx m (List.getElem?_mem hm) _ hmem) hidx
        ⟨m, List.getElem?_mem hm, m.rows[p], hmem, fun i => Iff.rfl⟩
    have hc : c1 = c := hdistinct c1 c m1 m e1 m.rows[p] hm1 hm he1 hmem hsame
    subst hc
    simp [KNNClassifier.predicted, ← htrained, hcall]
  have htotal : trained.totalCorrect k 0 dataSet = totalRows dataSet :=
    totalCorrect_all trained k dataSet 0 (by
      intro i m hm
      rw [zero_add]
      exact hcorrect i m hm)
  refine ⟨trained, _, htrain,
    classifyDataset_eq trained k dataSet hstore hlabels hcols hidx, ?_, ?_, ?_, ?_⟩
  · simp only [htotal]
  · rfl
  · have hne : ¬ ((totalRows dataSet : Nat) : Int) = 0 := by omega
    have hne2 : ((totalRows dataSet : Nat) : ℚ) ≠ 0 := by exact_mod_cast hne
    have hne3 : ¬ (100 : Int) * ((totalRows dataSet : Nat) : Int) = 0 := by omega
    simp only [htotal, quotient, hne, if_false, Option.some.injEq]
    push_cast
    field_simp
  · intro c m hm hrows
    have hline := expectedLines_getElem trained k dataSet 0 c m hm
    simp only [zero_add, hcorrect c m hm] at hline
    have hne : ¬ ((m.nRows : Nat) : Int) = 0 := by omega
    have hne2 : ((m.nRows : Nat) : ℚ) ≠ 0 := by exact_mod_cast hne
    refine ⟨_, hline, rfl, rfl, ?_⟩
    simp only [quotient, hne, if_false, Option.some.injEq]
    push_cast
    field_simp

theorem scenarioDataset_distinct :
    ∀ (c1 c2 : Nat) (m1 m2 : SparseMatrix01) (e1 e2 : List Nat),
      scenarioDataset[c1]? = some m1 → scenarioDataset[c2]? = some m2 → e1 ∈ m1.rows →
      e2 ∈ m2.rows → SameExample e1 e2 → c1 = c2 := by
  intro c1 c2 m1 m2 e1 e2 h1 h2 he1 he2 hsame
  have h0 := hsame 0
  rcases c1 with _ | _ | c1 <;> rcases c2 with _ | _ | c2 <;>
    simp [scenarioDataset] at h1 h2 <;> try rfl
  all_goals
    subst h1
    subst h2
    simp only [List.mem_singleton] at he1 he2
    subst he1
    subst he2
    simp at h0

/-- C7 at the scenario of the specification: `numClasses = 2`, `inputSize = 4`, class 0 holds
the example without an index and class 1 the example with the indices 0, 1, 2, 3. -/
theorem self_evaluation_perfect_witness :
    ∃ (trained : KNNClassifier) (report : Report),
      KNNClassifier.trainDataset
        { numClasses_ := 2, inputSize_ := 4, knn_ := { nCols := 4, rows := [] },
          knn_categories_ := [] } scenarioDataset = .ok trained ∧
      trained.classifyDataset 1 scenarioDataset = .ok (report, trained) ∧
      report.numCorrect = report.numInferences ∧
      report.numInferences = (totalRows scenarioDataset : Nat) ∧
      report.overallAccuracy = some 100 ∧
      ∀ (c : Nat) (m : SparseMatrix01), scenarioDataset[c]? = some m → m.nRows ≠ 0 →
        ∃ line : CategoryLine, report.lines[c]? = some line ∧
          line.numCorrectClass = (line.numExamples : Nat) ∧ line.numExamples = m.nRows ∧
          line.pctCorrect = some 1 :=
  self_evaluation_perfect 2 4 1 _ scenarioDataset rfl (by decide) (by decide)
    (by decide) scenarioDataset_distinct

/-- C6, as stated, fails when two classes hold the same example: with `numClasses = 2`,
`inputSize = 4` and the example with the one index 0 in class 0 and in class 1, the query that
is the stored example of class 1 gets class 0. -/
theorem one_example_per_class_shared :
    ∃ fresh trained : KNNClassifier,
      KNNClassifier.construct 2 4 = .ok fresh ∧
      fresh.trainDataset [{ rows := [[0]] }, { rows := [[0]] }] = .ok trained ∧
      ([{ rows := [[0]] }, { rows := [[0]] }] : List SparseMatrix01)[1]? =
        some { rows := [[0]] } ∧
      trained.classifyPattern 0 1 { rows := [[0]] } = .ok (0, trained) ∧
      trained.classifyPattern 0 1 { rows := [[0]] } ≠ .ok (1, trained) := by
  refine ⟨_, _, rfl, rfl, rfl, rfl, ?_⟩
  intro h
  have h0 : (trainedOn 2 4 [{ rows := [[0]] }, { rows := [[0]] }]).classifyPattern 0 1
      { rows := [[0]] } = .ok (0, trainedOn 2 4 [{ rows := [[0]] }, { rows := [[0]] }]) := rfl
  have h1 : (Except.ok (0, trainedOn 2 4 [{ rows := [[0]] }, { rows := [[0]] }]) :
      Except Fault (Int × KNNClassifier)) = .ok (1, _) := h0.symm.trans h
  injection h1 with h2
  injection h2 with h3 _
  exact absurd h3 (by decide)

/-- C6, amended: for a training set with exactly one example in every class, trained into a
classifier the constructor gave, and a query identical to the stored example of class `c`,
`classifyPattern` returns the smallest class index whose stored example is identical to the
query; it is `c`, the class of that stored example, whenever no earlier class holds an example
identical to the query. -/
theorem one_example_per_class (numClasses inputSize row k : Int) (fresh : KNNClassifier)
    (trainingSet : List SparseMatrix01) (query : SparseMatrix01) (indices : List Nat)
    (c : Nat) (e : List Nat)
    (hfresh : KNNClassifier.construct numClasses inputSize = .ok fresh)
    (hsize : numClasses ≤ (trainingSet.length : Int))
    (hone : ∀ m ∈ trainingSet.take numClasses.toNat, m.nRows = 1)
    (hidx : ∀ m ∈ trainingSet.take numClasses.toNat, m.Below inputSize)
    (hrow : 0 ≤ row ∧ query.rows[row.toNat]? = some indices)
    (hc : (c : Int) < numClasses) (hstored : trainingSet[c]? = some { rows := [e] })
    (hsame : SameExample indices e) :
    ∃ (trained : KNNClassifier) (b : Nat) (eb : List Nat),
      fresh.trainDataset trainingSet = .ok trained ∧
      trained.classifyPattern row k query = .ok ((b : Int), trained) ∧
      b ≤ c ∧ trainingSet[b]? = some { rows := [eb] } ∧ SameExample indices eb ∧
      (∀ (j : Nat) (ej : List Nat), j < b → trainingSet[j]? = some { rows := [ej] } →
        ¬ SameExample indices ej) ∧
      ((∀ (j : Nat) (ej : List Nat), j < c → trainingSet[j]? = some { rows := [ej] } →
        ¬ SameExample indices ej) → b = c) := by
  have hpos : 0 < inputSize := (construct_ok _ _ _ hfresh).1
  have htrain := trainDataset_fresh numClasses inputSize fresh trainingSet hfresh hsize hidx
  set l := trainingSet.take numClasses.toNat with hl
  set n := inputSize.toNat with hn
  have hllen : l.length = numClasses.toNat := by
    rw [hl, List.length_take]
    omega
  have hget : ∀ j : Nat, j < l.length → l[j]? = trainingSet[j]? := by
    intro j hj
    rw [hl]
    exact List.getElem?_take_of_lt (by omega)
  have hcl : c < l.length := by omega
  have hlc : l[c]? = some { rows := [e] } := by rw [hget c hcl]; exact hstored
  have hbelow : ∀ (j : Nat) (ej : List Nat), l[j]? = some { rows := [ej] } →
      ∀ i ∈ ej, i < n := by
    intro j ej hj i hi
    have := hidx _ (List.getElem?_mem hj) ej (by simp) i hi
    omega
  have hindices : ∀ i ∈ indices, (i : Int) < inputSize := by
    intro i hi
    have := hbelow c e hlc i ((hsame i).mp hi)
    omega
  have hrowAt : ∀ (j : Nat) (ej : List Nat), l[j]? = some { rows := [ej] } →
      (appendedRows n l)[j]? = some (denseOf n ej) := by
    intro j ej hj
    obtain ⟨e1, h1, h2, _⟩ := appended_single n l hone 0 j _ hj
    simp only [List.cons.injEq, and_true] at h1
    rw [h1]
    exact h2
  have hx : denseOf n indices = denseOf n e := denseOf_congr n indices e hsame
  obtain ⟨b, label, hcall, hlabel, hb, hfirst⟩ :=
    classifyPattern_exact (trainedOn numClasses inputSize l) row k query indices
      (by simp [trainedOn, appendedRows_length, appendedLabels_length])
      (by simp only [trainedOn]; omega) hrow hindices
      (appendedRows_row_length _ _)
      (by
        simp only [trainedOn, ← hn]
        rw [hx]
        exact List.getElem?_mem (hrowAt c e hlc))
  simp only [trainedOn, ← hn] at hlabel hb hfirst
  have hbl : b < l.length := by
    have h1 : b < (appendedRows n l).length := by
      rcases List.getElem?_eq_some_iff.mp hb with ⟨h, _⟩
      exact h
    rwa [appendedRows_length, totalRows_single l hone] at h1
  obtain ⟨eb, heb, hrb, hlb⟩ := appended_single n l hone 0 b l[b]
    (List.getElem?_eq_getElem hbl)
  have hmb : l[b]? = some { rows := [eb] } := by
    rw [List.getElem?_eq_getElem hbl, ← heb]
  have hlabel2 : label = (b : Int) := by
    rw [hlb] at hlabel
    simpa using hlabel.symm
  have hdense : denseOf n eb = denseOf n indices := by
    rw [hrb] at hb
    simpa using hb
  have hsameb : SameExample indices eb :=
    denseOf_inj n indices eb (fun i hi => by have := hindices i hi; omega)
      (hbelow b eb hmb) hdense.symm
  have hearlier : ∀ (j : Nat) (ej : List Nat), j < b → trainingSet[j]? = some { rows := [ej] } →
      ¬ SameExample indices ej := by
    intro j ej hj hej hs
    have h1 := hrowAt j ej (by rw [hget j (by omega)]; exact hej)
    rw [← denseOf_congr n indices ej hs] at h1
    exact hfirst j hj h1
  have hbc : b ≤ c := by
    by_contra hcon
    exact hearlier c e (by omega) hstored hsame
  subst hlabel2
  refine ⟨_, b, eb, htrain, hcall, hbc, by rw [← hget b hbl]; exact hmb, hsameb, hearlier, ?_⟩
  intro hnone
  by_contra hne
  exact hnone b eb (by omega) (by rw [← hget b hbl]; exact hmb) hsameb

/-- C6, amended, at the scenario of the specification: the query with the indices 0, 1, 2, 3 is
the stored example of class 1. -/
theorem one_example_per_class_witness :
    ∃ (trained : KNNClassifier) (b : Nat) (eb : List Nat),
      KNNClassifier.trainDataset
        { numClasses_ := 2, inputSize_ := 4, knn_ := { nCols := 4, rows := [] },
          knn_categories_ := [] } scenarioDataset = .ok trained ∧
      trained.classifyPattern 0 1 { rows := [[0, 1, 2, 3]] } = .ok ((b : Int), trained) ∧
      b ≤ 1 ∧ scenarioDataset[b]? = some { rows := [eb] } ∧ SameExample [0, 1, 2, 3] eb ∧
      (∀ (j : Nat) (ej : List Nat), j < b → scenarioDataset[j]? = some { rows := [ej] } →
        ¬ SameExample [0, 1, 2, 3] ej) ∧
      ((∀ (j : Nat) (ej : List Nat), j < 1 → scenarioDataset[j]? = some { rows := [ej] } →
        ¬ SameExample [0, 1, 2, 3] ej) → b = 1) :=
  one_example_per_class 2 4 0 1 _ scenarioDataset { rows := [[0, 1, 2, 3]] } [0, 1, 2, 3] 1
    [0, 1, 2, 3] rfl (by decide) (by decide) (by decide) ⟨by decide, by decide⟩
    (by decide) rfl (by decide)

/-- C11: for every `inputSize` and every sparse index list whose indices are all below
`inputSize`, the dense vector that `trainClass` and `classifyPattern` build (a vector resized to
`inputSize` zeros, then the loop that sets the listed positions) has length `inputSize`, holds 1
at position `i` exactly when `i` occurs in the list and 0 at every other position; it is the row
`trainClass` stores for the example. -/
theorem densification (inputSize : Nat) (indices : List Nat)
    (h : ∀ i ∈ indices, i < inputSize) :
    ∃ zeros dense : List Int,
      resize (inputSize : Int) 0 = .ok zeros ∧ setOnes zeros indices = .ok dense ∧
      dense.length = inputSize ∧
      (∀ i : Nat, i < inputSize → dense[i]? = some (if i ∈ indices then 1 else 0)) ∧
      (∀ i : Nat, inputSize ≤ i → dense[i]? = none) ∧
      ∀ (category numClasses : Int) (rows : List (List Int)) (labels : List Int),
        KNNClassifier.trainRows category
          { numClasses_ := numClasses, inputSize_ := (inputSize : Int),
            knn_ := { nCols := inputSize, rows := rows }, knn_categories_ := labels }
          [indices] =
        .ok { numClasses_ := numClasses, inputSize_ := (inputSize : Int),
              knn_ := { nCols := inputSize, rows := rows ++ [dense] },
              knn_categories_ := labels ++ [category] } := by
  have hneg : ¬ (inputSize : Int) < 0 := by omega
  refine ⟨List.replicate inputSize 0, denseOf inputSize indices, ?_,
    setOnes_replicate inputSize indices h, denseOf_length _ _, ?_, ?_, ?_⟩
  · simp [resize, hneg]
  · intro i hi
    simp [denseOf, List.getElem?_range hi]
  · intro i hi
    simp [denseOf, hi]
  · intro category numClasses rows labels
    have := trainRows_eq category [indices]
      { numClasses_ := numClasses, inputSize_ := (inputSize : Int),
        knn_ := { nCols := inputSize, rows := rows }, knn_categories_ := labels }
      rfl (by
        intro r hr i hi
        simp only [List.mem_singleton] at hr
        subst hr
        have := h i hi
        simp only []
        omega)
    simpa using this

/-- C11 at the example of the specification: the indices 2 and 5 with `inputSize = 8` give
`[0,0,1,0,0,1,0,0]`. -/
theorem densification_witness :
    (∃ zeros dense : List Int,
      resize ((8 : Nat) : Int) 0 = .ok zeros ∧ setOnes zeros [2, 5] = .ok dense ∧
      dense.length = 8 ∧
      (∀ i : Nat, i < 8 → dense[i]? = some (if i ∈ [2, 5] then 1 else 0)) ∧
      (∀ i : Nat, 8 ≤ i → dense[i]? = none) ∧
      ∀ (category numClasses : Int) (rows : List (List Int)) (labels : List Int),
        KNNClassifier.trainRows category
          { numClasses_ := numClasses, inputSize_ := ((8 : Nat) : Int),
            knn_ := { nCols := 8, rows := rows }, knn_categories_ := labels }
          [[2, 5]] =
        .ok { numClasses_ := numClasses, inputSize_ := ((8 : Nat) : Int),
              knn_ := { nCols := 8, rows := rows ++ [dense] },
              knn_categories_ := labels ++ [category] }) ∧
    (resize 8 0).bind (fun zeros => setOnes zeros [2, 5]) = .ok [0, 0, 1, 0, 0, 1, 0, 0] :=
  ⟨densification 8 [2, 5] (by decide), rfl⟩

/-- C12: `classifyPattern` and `classifyDataset` are read-only: for every state, `k`, data set
and row, when the call returns, the state it gives back has the stored rows, `knn_categories_`,
`numClasses_` and `inputSize_` of the state it was called in. -/
theorem classify_read_only (self : KNNClassifier) (row k : Int) (dataSet : SparseMatrix01)
    (dataSets : List SparseMatrix01) :
    (∀ (label : Int) (after : KNNClassifier),
      self.classifyPattern row k dataSet = .ok (label, after) →
        after.knn_.rows = self.knn_.rows ∧ after.knn_categories_ = self.knn_categories_ ∧
        after.numClasses_ = self.numClasses_ ∧ after.inputSize_ = self.inputSize_) ∧
    (∀ (report : Report) (after : KNNClassifier),
      self.classifyDataset k dataSets = .ok (report, after) →
        after.knn_.rows = self.knn_.rows ∧ after.knn_categories_ = self.knn_categories_ ∧
        after.numClasses_ = self.numClasses_ ∧ after.inputSize_ = self.inputSize_) := by
  constructor
  · intro label after h
    rw [classifyPattern_ok _ _ _ _ _ _ h]
    exact ⟨rfl, rfl, rfl, rfl⟩
  · intro report after h
    rw [classifyDataset_ok _ _ _ _ _ h]
    exact ⟨rfl, rfl, rfl, rfl⟩

/-- C12 at the scenario of the specification: both calls return, and give back the store as it
was. -/
theorem classify_read_only_witness :
    (∃ (label : Int) (after : KNNClassifier),
      scenarioClassifier.classifyPattern 0 1 { rows := [[0, 1, 2, 3]] } = .ok (label, after) ∧
        after.knn_.rows = scenarioClassifier.knn_.rows ∧
        after.knn_categories_ = scenarioClassifier.knn_categories_ ∧
        after.numClasses_ = scenarioClassifier.numClasses_ ∧
        after.inputSize_ = scenarioClassifier.inputSize_) ∧
    (∃ (report : Report) (after : KNNClassifier),
      scenarioClassifier.classifyDataset 1 scenarioDataset = .ok (report, after) ∧
        after.knn_.rows = scenarioClassifier.knn_.rows ∧
        after.knn_categories_ = scenarioClassifier.knn_categories_ ∧
        after.numClasses_ = scenarioClassifier.numClasses_ ∧
        after.inputSize_ = scenarioClassifier.inputSize_) :=
  ⟨⟨1, scenarioClassifier, rfl,
      (classify_read_only scenarioClassifier 0 1 { rows := [[0, 1, 2, 3]] } scenarioDataset).1
        1 scenarioClassifier rfl⟩,
    ⟨_, scenarioClassifier, rfl,
      (classify_read_only scenarioClassifier 0 1 { rows := [[0, 1, 2, 3]] } scenarioDataset).2
        _ scenarioClassifier rfl⟩⟩

theorem trainClass_congr (self : KNNClassifier) (c : Nat) (set1 set2 : List SparseMatrix01)
    (h : set1[c]? = set2[c]?) :
    self.trainClass (c : Int) set1 = self.trainClass (c : Int) set2 := by
  simp only [KNNClassifier.trainClass, vectorAt, Int.toNat_ofNat, h]

theorem trainCategories_congr (set1 set2 : List SparseMatrix01) (categories : List Nat) :
    ∀ self : KNNClassifier, (∀ c ∈ categories, set1[c]? = set2[c]?) →
      KNNClassifier.trainCategories set1 self categories =
        KNNClassifier.trainCategories set2 self categories := by
  induction categories with
  | nil => intro self _; rfl
  | cons c rest ih =>
    intro self h
    simp only [KNNClassifier.trainCategories]
    rw [trainClass_congr self c set1 set2 (h c (List.mem_cons_self _ _))]
    split
    · rfl
    · exact ih _ (fun c1 h1 => h c1 (List.mem_cons_of_mem _ h1))

/-- C13: `trainDataset` ignores the collections from index `numClasses_` on: for every state and
every two data sets that agree on the collections `0 .. numClasses_ - 1` (as two data sets with
at least `numClasses_` collections each and the same first `numClasses_` collections do),
`trainDataset` gives the same result, the rows and labels of the store included. -/
theorem trainDataset_ignores_rest (self : KNNClassifier) (set1 set2 : List SparseMatrix01)
    (hagree : ∀ c : Nat, (c : Int) < self.numClasses_ → set1[c]? = set2[c]?) :
    self.trainDataset set1 = self.trainDataset set2 := by
  apply trainCategories_congr
  intro c hc
  have := List.mem_range.mp hc
  exact hagree c (by omega)

/-- C13 at the scenario of the specification, once with a third collection and once without. -/
theorem trainDataset_ignores_rest_witness :
    KNNClassifier.trainDataset
        { numClasses_ := 2, inputSize_ := 4, knn_ := { nCols := 4, rows := [] },
          knn_categories_ := [] } (scenarioDataset ++ [{ rows := [[1], [2, 9]] }]) =
      KNNClassifier.trainDataset
        { numClasses_ := 2, inputSize_ := 4, knn_ := { nCols := 4, rows := [] },
          knn_categories_ := [] } scenarioDataset :=
  trainDataset_ignores_rest
    { numClasses_ := 2, inputSize_ := 4, knn_ := { nCols := 4, rows := [] },
      knn_categories_ := [] } (scenarioDataset ++ [{ rows := [[1], [2, 9]] }]) scenarioDataset
    (by
      intro c hc
      have hc2 : c < 2 := by
        simp only [] at hc
        omega
      rcases c with _ | _ | c
      · rfl
      · rfl
      · omega)

/-! ## Invariants of the store -/

theorem setOnes_binary (indices : List Nat) :
    ∀ dense result : List Int, setOnes dense indices = .ok result →
      result.length = dense.length ∧
      ((∀ x ∈ dense, x = 0 ∨ x = 1) → ∀ x ∈ result, x = 0 ∨ x = 1) := by
  induction indices with
  | nil =>
    intro dense result h
    simp only [setOnes, Except.ok.injEq] at h
    subst h
    exact ⟨rfl, fun hb => hb⟩
  | cons i rest ih =>
    intro dense result h
    simp only [setOnes] at h
    split at h
    · obtain ⟨h1, h2⟩ := ih _ result h
      refine ⟨by rw [h1, List.length_set], fun hb => h2 ?_⟩
      intro x hx
      rcases List.mem_or_eq_of_mem_set hx with hx | hx
      · exact hb x hx
      · exact Or.inr hx
    · cases h

theorem trainRows_binary (category : Int) (rows : List (List Nat)) :
    ∀ self after : KNNClassifier, KNNClassifier.trainRows category self rows = .ok after →
      (∀ r ∈ self.knn_.rows, IsBinaryRow self.knn_.nCols r) →
      ∀ r ∈ after.knn_.rows, IsBinaryRow after.knn_.nCols r := by
  induction rows with
  | nil =>
    intro self after h hinv
    simp only [KNNClassifier.trainRows, Except.ok.injEq] at h
    subst h
    exact hinv
  | cons indices rest ih =>
    intro self after h hinv
    simp only [KNNClassifier.trainRows] at h
    split at h
    · cases h
    · rename_i pixels0 hresize
      split at h
      · cases h
      · rename_i pixels hset
        split at h
        · cases h
        · rename_i knn hadd
          simp only [NearestNeighbor.addRow] at hadd
          split at hadd
          · rename_i hle
            simp only [Except.ok.injEq] at hadd
            subst hadd
            apply ih _ after h
            simp only [resize] at hresize
            split at hresize
            · cases hresize
            · simp only [Except.ok.injEq] at hresize
              subst hresize
              obtain ⟨_, hbin⟩ := setOnes_binary indices _ pixels hset
              have hpix : ∀ x ∈ pixels, x = 0 ∨ x = 1 := hbin (by
                intro x hx
                exact Or.inl (List.eq_of_mem_replicate hx))
              intro r hr
              simp only [List.mem_append, List.mem_singleton] at hr
              rcases hr with hr | hr
              · exact hinv r hr
              · subst hr
                refine ⟨?_, fun x hx => hpix x (List.mem_of_mem_take hx)⟩
                simp only [List.length_take]
                omega
          · cases hadd

theorem trainClass_binary (self after : KNNClassifier) (category : Int)
    (trainingSet : List SparseMatrix01) (h : self.trainClass category trainingSet = .ok after)
    (hinv : ∀ r ∈ self.knn_.rows, IsBinaryRow self.knn_.nCols r) :
    ∀ r ∈ after.knn_.rows, IsBinaryRow after.knn_.nCols r := by
  simp only [KNNClassifier.trainClass] at h
  split at h
  · cases h
  · split at h
    · cases h
    · exact trainRows_binary _ _ _ _ h hinv

theorem trainCategories_binary (trainingSet : List SparseMatrix01) (categories : List Nat) :
    ∀ self after : KNNClassifier,
      KNNClassifier.trainCategories trainingSet self categories = .ok after →
      (∀ r ∈ self.knn_.rows, IsBinaryRow self.knn_.nCols r) →
      ∀ r ∈ after.knn_.rows, IsBinaryRow after.knn_.nCols r := by
  induction categories with
  | nil =>
    intro self after h hinv
    simp only [KNNClassifier.trainCategories, Except.ok.injEq] at h
    subst h
    exact hinv
  | cons c rest ih =>
    intro self after h hinv
    simp only [KNNClassifier.trainCategories] at h
    split at h
    · cases h
    · rename_i self1 hclass
      exact ih _ after h (trainClass_binary _ _ _ _ hclass hinv)

/-- In every state the program can be in, every stored row has as many entries as `knn_` has
columns, all of them 0 or 1. -/
theorem reachable_binary (c : KNNClassifier) (h : Reachable c) :
    ∀ r ∈ c.knn_.rows, IsBinaryRow c.knn_.nCols r := by
  induction h with
  | construct numClasses inputSize c hc =>
    rw [(construct_ok _ _ _ hc).2]
    intro r hr
    simp at hr
  | trainDataset c c1 trainingSet _ htrain ih =>
    exact trainCategories_binary _ _ _ _ htrain ih
  | classifyPattern c c1 row k label dataSet _ hcall ih =>
    rw [classifyPattern_ok _ _ _ _ _ _ hcall]
    exact ih
  | classifyDataset c c1 k dataSet report _ hcall ih =>
    rw [classifyDataset_ok _ _ _ _ _ hcall]
    exact ih

/-- In every state the program can be in, the store has as many labels as rows, and every label
is a class index below `numClasses_`. -/
theorem reachable_labels (c : KNNClassifier) (h : Reachable c) :
    c.knn_.rows.length = c.knn_categories_.length ∧
    ∀ label ∈ c.knn_categories_, 0 ≤ label ∧ label < c.numClasses_ := by
  induction h with
  | construct numClasses inputSize c hc =>
    rw [(construct_ok _ _ _ hc).2]
    exact ⟨rfl, by intro label hl; simp at hl⟩
  | trainDataset c c1 trainingSet _ htrain ih =>
    obtain ⟨h0, _, _, rs, ls, h1, h2, h3, h4⟩ := trainCategories_ok _ _ _ _ htrain
    refine ⟨by rw [h1, h2, List.length_append, List.length_append, ih.1, h3], ?_⟩
    intro label hl
    rw [h2] at hl
    rw [h0]
    rcases List.mem_append.mp hl with hl | hl
    · exact ih.2 label hl
    · obtain ⟨cat, hcat, heq⟩ := h4 label hl
      have := List.mem_range.mp hcat
      subst heq
      omega
  | classifyPattern c c1 row k label dataSet _ hcall ih =>
    rw [classifyPattern_ok _ _ _ _ _ _ hcall]
    exact ih
  | classifyDataset c c1 k dataSet report _ hcall ih =>
    rw [classifyDataset_ok _ _ _ _ _ hcall]
    exact ih

theorem findBest_mem (cats : List Int) (distances : List Int) :
    ∀ (i : Nat) (bestClass bestDistance best : Int),
      findBest cats distances i bestClass bestDistance = .ok best →
      best = bestClass ∨ best ∈ cats := by
  induction distances with
  | nil =>
    intro i bestClass bestDistance best h
    simp only [findBest, Except.ok.injEq] at h
    exact Or.inl h.symm
  | cons d rest ih =>
    intro i bestClass bestDistance best h
    simp only [findBest] at h
    split at h
    · split at h
      · rename_i c hc
        rcases ih _ _ _ _ h with h1 | h1
        · exact Or.inr (h1 ▸ List.getElem?_mem hc)
        · exact Or.inr h1
      · cases h
    · exact ih _ _ _ _ h

/-- A label `classifyPattern` returns is an element of `knn_categories_`. -/
theorem classifyPattern_label_mem (self after : KNNClassifier) (row k label : Int)
    (dataSet : SparseMatrix01) (h : self.classifyPattern row k dataSet = .ok (label, after)) :
    label ∈ self.knn_categories_ := by
  simp only [KNNClassifier.classifyPattern] at h
  split at h
  · cases h
  · split at h
    · cases h
    · split at h
      · cases h
      · split at h
        · cases h
        · split at h
          · cases h
          · rename_i bestClass hbest
            split at h
            · cases h
            · split at h
              · cases h
              · rename_i best hfind
                simp only [Except.ok.injEq, Prod.mk.injEq] at h
                rw [← h.1]
                rcases findBest_mem _ _ _ _ _ _ hfind with h1 | h1
                · rw [h1]
                  exact List.getElem?_mem hbest
                · exact h1

theorem scenarioClassifier_reachable : Reachable scenarioClassifier :=
  Reachable.trainDataset
    { numClasses_ := 2, inputSize_ := 4, knn_ := { nCols := 4, rows := [] },
      knn_categories_ := [] } scenarioClassifier scenarioDataset
    (Reachable.construct 2 4 _ rfl) rfl

/-- C16: in every state reached from the constructor by calls of `trainDataset` (and of the two
classification functions) that return, every stored row has exactly `inputSize_` entries, and
every entry of every stored row is 0 or 1. -/
theorem stored_rows_binary (c : KNNClassifier) (h : Reachable c) :
    0 < c.inputSize_ ∧
    ∀ r ∈ c.knn_.rows, r.length = c.inputSize_.toNat ∧ ∀ x ∈ r, x = 0 ∨ x = 1 := by
  obtain ⟨hpos, hcols⟩ := reachable_cols c h
  refine ⟨hpos, ?_⟩
  intro r hr
  obtain ⟨hlen, hbin⟩ := reachable_binary c h r hr
  exact ⟨by rw [hlen]; omega, hbin⟩

/-- C16 at the scenario of the specification, after `trainDataset`. -/
theorem stored_rows_binary_witness :
    0 < scenarioClassifier.inputSize_ ∧
    ∀ r ∈ scenarioClassifier.knn_.rows,
      r.length = scenarioClassifier.inputSize_.toNat ∧ ∀ x ∈ r, x = 0 ∨ x = 1 :=
  stored_rows_binary scenarioClassifier
    (Reachable.trainDataset
      { numClasses_ := 2, inputSize_ := 4, knn_ := { nCols := 4, rows := [] },
        knn_categories_ := [] } scenarioClassifier scenarioDataset
      (Reachable.construct 2 4 _ rfl) rfl)

/-- C17: the constructor fails when `inputSize <= 0`, for every `numClasses`, with the check of
the matrix constructor; for every `inputSize > 0` and every `numClasses` it returns a classifier
that records `numClasses` and `inputSize` and has an empty store: no row and no label. -/
theorem construct_checks_inputSize (numClasses inputSize : Int) :
    (inputSize ≤ 0 →
      KNNClassifier.construct numClasses inputSize = .error .constructorCheck ∧
      Fault.checked .constructorCheck = true) ∧
    (0 < inputSize →
      ∃ c : KNNClassifier, KNNClassifier.construct numClasses inputSize = .ok c ∧
        c.numClasses_ = numClasses ∧ c.inputSize_ = inputSize ∧
        c.knn_.nCols = inputSize.toNat ∧ c.knn_.nRows = 0 ∧ c.knn_.rows = [] ∧
        c.knn_categories_ = []) := by
  constructor
  · intro h
    simp [KNNClassifier.construct, NearestNeighbor.construct, h, Fault.checked]
  · intro h
    have h2 : ¬ inputSize ≤ 0 := by omega
    refine ⟨{ numClasses_ := numClasses, inputSize_ := inputSize,
              knn_ := { nCols := inputSize.toNat, rows := [] }, knn_categories_ := [] },
      ?_, rfl, rfl, rfl, rfl, rfl, rfl⟩
    simp [KNNClassifier.construct, NearestNeighbor.construct, h2]

/-- C17 at `inputSize = 0`, which fails, and at the scenario of the specification
(`numClasses = 2`, `inputSize = 4`), which gives an empty store. -/
theorem construct_checks_inputSize_witness :
    (KNNClassifier.construct 2 0 = .error .constructorCheck ∧
      Fault.checked .constructorCheck = true) ∧
    ∃ c : KNNClassifier, KNNClassifier.construct 2 4 = .ok c ∧
      c.numClasses_ = 2 ∧ c.inputSize_ = 4 ∧
      c.knn_.nCols = (4 : Int).toNat ∧ c.knn_.nRows = 0 ∧ c.knn_.rows = [] ∧
      c.knn_categories_ = [] :=
  ⟨(construct_checks_inputSize 2 0).1 (by decide),
    (construct_checks_inputSize 2 4).2 (by decide)⟩

/-- C18: in every state reached from the constructor by calls that return, every entry of
`knn_categories_` lies in `[0, numClasses_)`; and so every label a call of `classifyPattern`
returns in such a state is an element of `knn_categories_` and lies in `[0, numClasses_)`. -/
theorem labels_in_range (c : KNNClassifier) (h : Reachable c) :
    (∀ label ∈ c.knn_categories_, 0 ≤ label ∧ label < c.numClasses_) ∧
    ∀ (row k label : Int) (dataSet : SparseMatrix01) (after : KNNClassifier),
      c.classifyPattern row k dataSet = .ok (label, after) →
        label ∈ c.knn_categories_ ∧ 0 ≤ label ∧ label < c.numClasses_ := by
  have hrange := (reachable_labels c h).2
  refine ⟨hrange, ?_⟩
  intro row k label dataSet after hcall
  have hmem := classifyPattern_label_mem c after row k label dataSet hcall
  exact ⟨hmem, hrange label hmem⟩

/-- C18 at the scenario of the specification: the labels are 0 and 1, and the query with the
indices 0, 1, 2, 3 gets the label 1. -/
theorem labels_in_range_witness :
    (∀ label ∈ scenarioClassifier.knn_categories_,
      0 ≤ label ∧ label < scenarioClassifier.numClasses_) ∧
    ((1 : Int) ∈ scenarioClassifier.knn_categories_ ∧ (0 : Int) ≤ 1 ∧
      (1 : Int) < scenarioClassifier.numClasses_) :=
  ⟨(labels_in_range scenarioClassifier
      (Reachable.trainDataset
        { numClasses_ := 2, inputSize_ := 4, knn_ := { nCols := 4, rows := [] },
          knn_categories_ := [] } scenarioClassifier scenarioDataset
        (Reachable.construct 2 4 _ rfl) rfl)).1,
    (labels_in_range scenarioClassifier
      (Reachable.trainDataset
        { numClasses_ := 2, inputSize_ := 4, knn_ := { nCols := 4, rows := [] },
          knn_categories_ := [] } scenarioClassifier scenarioDataset
        (Reachable.construct 2 4 _ rfl) rfl)).2
      0 1 1 { rows := [[0, 1, 2, 3]] } scenarioClassifier rfl⟩

theorem expectedLines_length (self : KNNClassifier) (k : Int) (dataSet : List SparseMatrix01) :
    ∀ c : Nat, (self.expectedLines k c dataSet).length = dataSet.length := by
  induction dataSet with
  | nil => intro c; rfl
  | cons m rest ih => intro c; simp [KNNClassifier.expectedLines, ih]

/-- No pattern is counted as correct for a collection index that is not below `numClasses_`,
because every predicted label is an element of `knn_categories_`. -/
theorem correctIn_beyond (self : KNNClassifier) (k : Int) (category : Nat)
    (m : SparseMatrix01)
    (hrange : ∀ label ∈ self.knn_categories_, 0 ≤ label ∧ label < self.numClasses_)
    (hcat : self.numClasses_ ≤ (category : Int)) :
    self.correctIn k category m = 0 := by
  simp only [KNNClassifier.correctIn]
  rw [List.countP_eq_zero]
  intro p _
  simp only [KNNClassifier.predicted, beq_iff_eq]
  split
  · rename_i label after hcall
    have hmem := classifyPattern_label_mem self after (p : Int) k label m hcall
    have := (hrange label hmem).2
    simp only [Option.some.injEq]
    omega
  · simp

/-- C19: `classifyDataset` goes over all the collections of the data set, not over
`numClasses_` of them: in a state reached from the constructor, with at least one stored row,
for a data set whose indices are all below `inputSize_`, it returns one line for every
collection and counts every example of every collection in `numInferences`, and every
collection with an index `category >= numClasses_` has `numCorrectClass = 0`. -/
theorem collections_beyond_numClasses (self : KNNClassifier) (k : Int)
    (dataSet : List SparseMatrix01)
    (hreach : Reachable self)
    (hstore : self.knn_.rows ≠ [])
    (hidx : ∀ m ∈ dataSet, m.Below self.inputSize_) :
    ∃ report : Report, self.classifyDataset k dataSet = .ok (report, self) ∧
      report.lines.length = dataSet.length ∧
      report.numInferences = (totalRows dataSet : Nat) ∧
      ∀ (category : Nat) (m : SparseMatrix01), dataSet[category]? = some m →
        self.numClasses_ ≤ (category : Int) →
        ∃ line : CategoryLine, report.lines[category]? = some line ∧
          line.category = (category : Int) ∧ line.numExamples = m.nRows ∧
          line.numCorrectClass = 0 := by
  obtain ⟨hlabels, hrange⟩ := reachable_labels self hreach
  obtain ⟨_, hcols⟩ := reachable_cols self hreach
  rw [classifyDataset_eq self k dataSet hstore hlabels hcols hidx]
  refine ⟨_, rfl, expectedLines_length self k dataSet 0, rfl, ?_⟩
  intro category m hm hcat
  have hline := expectedLines_getElem self k dataSet 0 category m hm
  simp only [zero_add, correctIn_beyond self k category m hrange hcat] at hline
  exact ⟨_, hline, rfl, rfl, rfl⟩

/-- C19 at the scenario of the specification with a third collection of two examples, beyond
`numClasses = 2`. -/
theorem collections_beyond_numClasses_witness :
    ∃ report : Report,
      scenarioClassifier.classifyDataset 1 scenarioThreeCollections =
        .ok (report, scenarioClassifier) ∧
      report.lines.length = scenarioThreeCollections.length ∧
      report.numInferences = (totalRows scenarioThreeCollections : Nat) ∧
      ∀ (category : Nat) (m : SparseMatrix01),
        scenarioThreeCollections[category]? = some m →
        scenarioClassifier.numClasses_ ≤ (category : Int) →
        ∃ line : CategoryLine, report.lines[category]? = some line ∧
          line.category = (category : Int) ∧ line.numExamples = m.nRows ∧
          line.numCorrectClass = 0 :=
  collections_beyond_numClasses scenarioClassifier 1 scenarioThreeCollections
    scenarioClassifier_reachable
    (by decide) (by decide)

/-- C20: on a store with at least one row, as many labels as rows and `inputSize_` columns, for
a row of the data set that exists and whose indices are all below `inputSize_`,
`classifyPattern` runs into no fault (every access is in range) and returns a label; and
`classifyDataset` on a data set of collections whose indices are all below `inputSize_` runs
into no fault and returns its report. -/
theorem classification_is_safe (self : KNNClassifier) (row k : Int)
    (dataSet : SparseMatrix01) (indices : List Nat) (dataSets : List SparseMatrix01)
    (hstore : self.knn_.rows ≠ [])
    (hlabels : self.knn_.rows.length = self.knn_categories_.length)
    (hcols : (self.knn_.nCols : Int) = self.inputSize_)
    (hrow : 0 ≤ row ∧ row < (dataSet.nRows : Int) ∧ dataSet.rows[row.toNat]? = some indices)
    (hidx : ∀ i ∈ indices, (i : Int) < self.inputSize_)
    (hsets : ∀ m ∈ dataSets, m.Below self.inputSize_) :
    (∃ label : Int, self.classifyPattern row k dataSet = .ok (label, self) ∧
      label ∈ self.knn_categories_) ∧
    (∃ report : Report, self.classifyDataset k dataSets = .ok (report, self)) ∧
    (∀ e : Fault, self.classifyPattern row k dataSet ≠ .error e) ∧
    (∀ e : Fault, self.classifyDataset k dataSets ≠ .error e) := by
  obtain ⟨_, label, hcall, _⟩ :=
    classifyPattern_first_min self row k dataSet indices hstore hlabels hcols
      ⟨hrow.1, hrow.2.2⟩ hidx
  have hds := classifyDataset_eq self k dataSets hstore hlabels hcols hsets
  refine ⟨⟨label, hcall, classifyPattern_label_mem self self row k label dataSet hcall⟩,
    ⟨_, hds⟩, ?_, ?_⟩
  · intro e he
    rw [hcall] at he
    cases he
  · intro e he
    rw [hds] at he
    cases he

/-- C20 at the scenario of the specification. -/
theorem classification_is_safe_witness :
    (∃ label : Int,
      scenarioClassifier.classifyPattern 0 1 { rows := [[0, 1, 2, 3]] } =
        .ok (label, scenarioClassifier) ∧
      label ∈ scenarioClassifier.knn_categories_) ∧
    (∃ report : Report,
      scenarioClassifier.classifyDataset 1 scenarioDataset = .ok (report, scenarioClassifier)) ∧
    (∀ e : Fault,
      scenarioClassifier.classifyPattern 0 1 { rows := [[0, 1, 2, 3]] } ≠ .error e) ∧
    (∀ e : Fault, scenarioClassifier.classifyDataset 1 scenarioDataset ≠ .error e) :=
  classification_is_safe scenarioClassifier 0 1 { rows := [[0, 1, 2, 3]] } [0, 1, 2, 3]
    scenarioDataset (by decide) (by decide) (by decide) ⟨by decide, by decide, by decide⟩
    (by decide) (by decide)

/-! ## Calls that run into a fault -/

theorem trainCategories_append (trainingSet : List SparseMatrix01) (first : List Nat) :
    ∀ (self : KNNClassifier) (rest : List Nat),
      KNNClassifier.trainCategories trainingSet self (first ++ rest) =
        match KNNClassifier.trainCategories trainingSet self first with
        | .error e => .error e
        | .ok self1 => KNNClassifier.trainCategories trainingSet self1 rest := by
  induction first with
  | nil => intro self rest; rfl
  | cons c others ih =>
    intro self rest
    simp only [List.cons_append, KNNClassifier.trainCategories]
    split
    · rfl
    · exact ih _ _

/-- With fewer collections than `numClasses_`, all of them with indices below `inputSize_`,
`trainDataset` trains the collections there are and then reads the element of the vector of
collections after its last one. -/
theorem trainDataset_missing_collection (self : KNNClassifier)
    (trainingSet : List SparseMatrix01)
    (hcols : (self.knn_.nCols : Int) = self.inputSize_)
    (hfew : (trainingSet.length : Int) < self.numClasses_)
    (hidx : ∀ m ∈ trainingSet, m.Below self.inputSize_) :
    self.trainDataset trainingSet = .error .collectionIndex := by
  have hsplit : List.range self.numClasses_.toNat =
      List.range' 0 trainingSet.length ++
        (trainingSet.length :: List.range' (trainingSet.length + 1)
          (self.numClasses_.toNat - trainingSet.length - 1)) := by
    rw [List.range_eq_range']
    have h1 : self.numClasses_.toNat =
        ((self.numClasses_.toNat - trainingSet.length - 1) + 1) + trainingSet.length := by
      omega
    have h2 := List.range'_append_1 0 trainingSet.length
      ((self.numClasses_.toNat - trainingSet.length - 1) + 1)
    rw [← h1, zero_add, List.range'_succ] at h2
    exact h2.symm
  have hfirst := trainCategories_eq trainingSet trainingSet.length 0 self hcols (by omega)
    (by
      intro m hm
      exact hidx m (by simpa using hm))
  have hneg : ¬ self.inputSize_ < 0 := by omega
  have hnone : trainingSet[trainingSet.length]? = none := by simp
  rw [KNNClassifier.trainDataset, hsplit, trainCategories_append, hfirst]
  simp [KNNClassifier.trainCategories, KNNClassifier.trainClass, resize, hneg, vectorAt, hnone]

/-- C14, the code at a data set with fewer collections than classes: a classifier constructed
with `numClasses = 2` and `inputSize = 4`, trained on a data set that holds one collection only,
trains class 0 and then reads `trainingSet[1]` of a vector of one element.  The source does not
check this access (the fault is not one it reports), although the comment at the head of
`trainDataset` reads `Ensure trainingSet has enough classes`. -/
theorem trainDataset_too_few_collections :
    ∃ fresh : KNNClassifier, KNNClassifier.construct 2 4 = .ok fresh ∧
      fresh.trainDataset [{ rows := [[]] }] = .error .collectionIndex ∧
      Fault.checked .collectionIndex = false :=
  ⟨_, rfl, rfl, rfl⟩

theorem setOnes_error (indices : List Nat) :
    ∀ (dense : List Int) (e : Fault), setOnes dense indices = .error e → e = .denseIndex := by
  induction indices with
  | nil => intro dense e h; simp [setOnes] at h
  | cons i rest ih =>
    intro dense e h
    simp only [setOnes] at h
    split at h
    · exact ih _ e h
    · simp only [Except.error.injEq] at h
      exact h.symm

/-- C15, as stated, fails: on the classifier the constructor gives for `numClasses = 2` and
`inputSize = 4`, whose store is empty, `classifyPattern` of an existing row with indices below
`inputSize` reads `knn_categories_[0]` of an empty vector.  The source does not check this
access: the call does not fail with an error the source reports, its result is not defined. -/
theorem classifyPattern_empty_store_unchecked :
    ∃ fresh : KNNClassifier, KNNClassifier.construct 2 4 = .ok fresh ∧
      fresh.knn_.rows = [] ∧
      fresh.classifyPattern 0 1 { rows := [[0, 1, 2, 3]] } = .error .categoriesIndex ∧
      Fault.checked .categoriesIndex = false :=
  ⟨_, rfl, rfl, rfl, rfl⟩

/-- C15, amended: in every state reached from the constructor whose store is empty,
`classifyPattern` returns no label, for every row, `k` and data set: it runs into an access the
source performs without a check, so that the call has no defined result; for a row of the data
set that exists and whose indices are below `inputSize_` the access is the read
`knn_categories_[0]`. -/
theorem classifyPattern_empty_store (self : KNNClassifier) (row k : Int)
    (dataSet : SparseMatrix01)
    (hreach : Reachable self) (hempty : self.knn_.rows = []) :
    ∃ e : Fault, self.classifyPattern row k dataSet = .error e ∧ e.checked = false ∧
      ∀ indices : List Nat, (0 ≤ row ∧ dataSet.rows[row.toNat]? = some indices) →
        (∀ i ∈ indices, (i : Int) < self.inputSize_) → e = .categoriesIndex := by
  obtain ⟨hpos, hcols⟩ := reachable_cols self hreach
  have hcats : self.knn_categories_ = [] := by
    have := (reachable_labels self hreach).1
    rw [hempty] at this
    exact List.length_eq_zero.mp this.symm
  have hneg : ¬ self.inputSize_ < 0 := by omega
  simp only [KNNClassifier.classifyPattern, resize, hneg, if_false]
  cases hget : dataSet.getRowSparse row with
  | error e =>
    have he : e = .rowIndex := by
      simp only [SparseMatrix01.getRowSparse] at hget
      split at hget
      · simp only [Except.error.injEq] at hget
        exact hget.symm
      · split at hget
        · cases hget
        · simp only [Except.error.injEq] at hget
          exact hget.symm
    subst he
    refine ⟨.rowIndex, rfl, rfl, ?_⟩
    intro indices hrow _
    have hrowlt : ¬ row < 0 := by omega
    simp [SparseMatrix01.getRowSparse, hrowlt, hrow.2] at hget
  | ok indices =>
    simp only []
    cases hset : setOnes (List.replicate self.inputSize_.toNat 0) indices with
    | error e =>
      have he := setOnes_error indices _ e hset
      subst he
      refine ⟨.denseIndex, rfl, rfl, ?_⟩
      intro indices1 hrow hidx
      have hrowlt : ¬ row < 0 := by omega
      simp only [SparseMatrix01.getRowSparse, hrowlt, if_false, hrow.2,
        Except.ok.injEq] at hget
      subst hget
      rw [setOnes_replicate _ _ (by
        intro i hi
        have := hidx i hi
        omega)] at hset
      cases hset
    | ok denseX =>
      have hlen : denseX.length = self.inputSize_.toNat := by
        rw [(setOnes_binary indices _ denseX hset).1, List.length_replicate]
      have hle : self.knn_.nCols ≤ denseX.length := by omega
      simp only [NearestNeighbor.L2Dist, hle, if_true, hcats, List.getElem?_nil]
      exact ⟨.categoriesIndex, rfl, rfl, fun _ _ _ => rfl⟩

/-- C15, amended, at the classifier the constructor gives for `numClasses = 2` and
`inputSize = 4`, before any training. -/
theorem classifyPattern_empty_store_witness :
    ∃ e : Fault,
      KNNClassifier.classifyPattern
        { numClasses_ := 2, inputSize_ := 4, knn_ := { nCols := 4, rows := [] },
          knn_categories_ := [] } 0 1 { rows := [[0, 1, 2, 3]] } = .error e ∧
      e.checked = false ∧
      ∀ indices : List Nat,
        ((0 : Int) ≤ 0 ∧
          (SparseMatrix01.mk [[0, 1, 2, 3]]).rows[(0 : Int).toNat]? = some indices) →
        (∀ i ∈ indices, (i : Int) < 4) → e = .categoriesIndex :=
  classifyPattern_empty_store
    { numClasses_ := 2, inputSize_ := 4, knn_ := { nCols := 4, rows := [] },
      knn_categories_ := [] } 0 1 { rows := [[0, 1, 2, 3]] }
    (Reachable.construct 2 4 _ rfl) rfl
